import Mathlib

/-! Subprocess handling of ninja (`src/subprocess-posix.cc`).

A shallow embedding of `Subprocess` and `SubprocessSet`.  Every system call the
source makes is replaced by its result, supplied by an environment record; the
preprocessor switches the source tests are the fields of `Build`.
-/

namespace Ninja

/-! ## Platform constants -/

/-- Signal number of SIGHUP (POSIX). -/
def SIGHUP : Int := 1
/-- Signal number of SIGINT (POSIX). -/
def SIGINT : Int := 2
/-- Signal number of SIGTERM (POSIX). -/
def SIGTERM : Int := 15
/-- Signal number of SIGKILL (POSIX). -/
def SIGKILL : Int := 9
/-- Value of errno after an interrupted system call. -/
def EINTR : Int := 4
/-- Value of errno for a bad file descriptor. -/
def EBADF : Int := 9

/-- What the code depends on at build time: the preprocessor switches tested in
`subprocess-posix.cc` and the way `Fatal` leaves. -/
structure Build where
  /-- `USE_PPOLL` is defined: `DoWork` is the ppoll variant. -/
  USE_PPOLL : Bool
  /-- `TARGET_OS_IPHONE` is non-zero. -/
  TARGET_OS_IPHONE : Bool
  /-- `_AIX` is defined. -/
  AIX : Bool
  /-- `POSIX_SPAWN_USEVFORK` is defined. -/
  POSIX_SPAWN_USEVFORK : Bool
  /-- `NDEBUG` is defined: `assert` expands to nothing. -/
  NDEBUG : Bool
  /-- Value of `FD_SETSIZE`. -/
  FD_SETSIZE : Nat
  /-- `Fatal` (of `util.h`, not among the sources at hand) leaves by a C++
  exception derived from `std::exception` instead of ending the process: the
  one thing that can reach the `catch` in `~Subprocess`. -/
  FATAL_THROWS : Bool
deriving DecidableEq, Repr

/-- How a modelled operation ends. -/
inductive Outcome (α : Type) where
  /-- The function returned to its caller. -/
  | returned (a : α)
  /-- The function called `Fatal(...)`; the argument names the failed operation. -/
  | fatal (what : String)
  /-- An `assert` failed. -/
  | abort
  /-- The behaviour is not defined: a macro was used outside its domain. -/
  | undefined
deriving DecidableEq, Repr

/-- Modelled from the spec: `Fatal` (declared in `util.h`, which is not part of
the sources at hand) reports the failing operation and terminates the whole
process: control never comes back to the function that called it.  (Whether
a `catch` could see it leave is the switch `FATAL_THROWS` of `Build`.) -/
def Fatal {α : Type} (what : String) : Outcome α :=
  Outcome.fatal what

/-! ## Data model -/

/-- Return values of `Subprocess::Finish` (`ExitStatus`). -/
inductive ExitStatus where
  | ExitSuccess
  | ExitFailure
  | ExitInterrupted
deriving DecidableEq, Repr

/-- Fields of `class Subprocess`. -/
structure Subprocess where
  buf_ : List Nat
  fd_ : Int
  pid_ : Int
  use_console_ : Bool
deriving DecidableEq, Repr

/-- Fields of `class SubprocessSet`; `finished_` is a queue whose front is the
head of the list.  The saved signal actions are not modelled. -/
structure SubprocessSet where
  running_ : List Subprocess
  finished_ : List Subprocess
  interrupted_ : Int
  old_mask_ : List Int
deriving DecidableEq, Repr

/-- Code of `Subprocess::Subprocess(bool use_console)`. -/
def Subprocess.new (use_console : Bool) : Subprocess :=
  { buf_ := [], fd_ := -1, pid_ := -1, use_console_ := use_console }

/-- Code of `Subprocess::Done`. -/
def Subprocess.Done (self : Subprocess) : Bool :=
  decide (self.fd_ = -1)

/-- Code of `Subprocess::GetOutput`. -/
def Subprocess.GetOutput (self : Subprocess) : List Nat :=
  self.buf_

/-- Modelled from the spec: `SubprocessSet::IsInterrupted` (declared in
`subprocess.h`, which is not part of the sources at hand) tells whether an
interruption was observed, that is whether `interrupted_` is not 0 ("0 means
none"). -/
def SubprocessSet.IsInterrupted (self : SubprocessSet) : Bool :=
  decide (self.interrupted_ ≠ 0)

/-! ## `Subprocess::Finish` -/

/-- The wait-status macros of `<sys/wait.h>` that `Finish` uses. -/
structure WaitMacros where
  WIFEXITED : Int → Bool
  WEXITSTATUS : Int → Int
  WIFSIGNALED : Int → Bool
  WTERMSIG : Int → Int

/-- No status is both a normal exit and a termination by signal. -/
def WaitMacros.Exclusive (m : WaitMacros) : Prop :=
  ∀ s : Int, ¬ (m.WIFEXITED s = true ∧ m.WIFSIGNALED s = true)

/-- The usual layout (Linux, macOS): low seven bits are the terminating signal,
the next byte the exit code, `0x7f` in the low bits marks a stopped child. -/
def posixWait : WaitMacros where
  WIFEXITED s := decide (s % 128 = 0)
  WEXITSTATUS s := (s / 256) % 256
  WIFSIGNALED s := decide (s % 128 ≠ 0 ∧ s % 128 ≠ 127)
  WTERMSIG s := s % 128

/-- An AIX-style layout, the one the comment in `Finish` refers to: a zero low
byte marks a normal exit with the code one byte up, bit `0x40` marks a stopped
child, and the terminating signal sits sixteen bits up. -/
def aixWait : WaitMacros where
  WIFEXITED s := decide (s % 256 = 0)
  WEXITSTATUS s := if s % 256 = 0 then (s / 256) % 256 else -1
  WIFSIGNALED s := decide (s % 256 ≠ 0 ∧ (s / 64) % 2 = 0)
  WTERMSIG s := if s % 256 ≠ 0 ∧ (s / 64) % 2 = 0 then (s / 65536) % 256 else -1

/-- Result of `waitpid(pid_, &status, 0)`: the return value and the status
written. -/
structure WaitpidResult where
  ret : Int
  status : Int
deriving DecidableEq, Repr

/-- The `#ifdef _AIX` block of `Finish`: an exit code with bit `0x80` set is
rewritten as `(signal << 16) | signal` with `signal = code & 0x7f`. -/
def aixRemap (b : Build) (m : WaitMacros) (status : Int) : Int :=
  if b.AIX && m.WIFEXITED status && decide (Int.land (m.WEXITSTATUS status) 0x80 ≠ 0) then
    let signal := Int.land (m.WEXITSTATUS status) 0x7f
    Int.lor (signal * 65536) signal
  else status

/-- The final `if`/`else if` of `Finish` on the (possibly rewritten) status. -/
def classify (m : WaitMacros) (status : Int) : ExitStatus :=
  if m.WIFEXITED status then
    if m.WEXITSTATUS status = 0 then ExitStatus.ExitSuccess else ExitStatus.ExitFailure
  else if m.WIFSIGNALED status then
    if m.WTERMSIG status = SIGINT ∨ m.WTERMSIG status = SIGTERM ∨ m.WTERMSIG status = SIGHUP then
      ExitStatus.ExitInterrupted
    else ExitStatus.ExitFailure
  else ExitStatus.ExitFailure

/-- Code of `Subprocess::Finish`; `w` is what `waitpid` gives. -/
def Subprocess.Finish (b : Build) (m : WaitMacros) (self : Subprocess) (w : WaitpidResult) :
    Outcome (ExitStatus × Subprocess) :=
  if !b.NDEBUG && decide (self.pid_ = -1) then Outcome.abort
  else if w.ret < 0 then Fatal "waitpid"
  else
    let self1 := { self with pid_ := -1 }
    Outcome.returned (classify m (aixRemap b m w.status), self1)

/-! ## Spawn requests -/

/-- One entry of a `posix_spawn_file_actions_t`. -/
inductive FileAction where
  /-- Entry added by `posix_spawn_file_actions_addclose`. -/
  | addclose (fd : Int)
  /-- Entry added by `posix_spawn_file_actions_addopen`; `oflag` is the name of
  the flag constant. -/
  | addopen (fd : Int) (path : String) (oflag : String) (mode : Nat)
  /-- Entry added by `posix_spawn_file_actions_adddup2`. -/
  | adddup2 (fd : Int) (newfd : Int)
deriving DecidableEq, Repr

/-- The bits of the `short flags` that `Start` may set. -/
structure SpawnFlags where
  SETSIGMASK : Bool
  SETPGROUP : Bool
  USEVFORK : Bool
deriving DecidableEq, Repr

/-- Contents of a `posix_spawnattr_t`: the flags stored by
`posix_spawnattr_setflags` and the mask stored by `posix_spawnattr_setsigmask`. -/
structure SpawnAttr where
  flags : SpawnFlags
  sigmask : Option (List Int)
deriving DecidableEq, Repr

/-- Arguments of the `posix_spawn` call. -/
structure SpawnRequest where
  path : String
  file_actions : List FileAction
  attr : SpawnAttr
  argv : List String
deriving DecidableEq, Repr

/-! ## Effects -/

/-- Observable calls made by the modelled code. -/
inductive Event where
  /-- Call of `perror` with this text. -/
  | perror (what : String)
  /-- Call of `OnPipeReady` on this child (as it was before the call). -/
  | OnPipeReady (c : Subprocess)
  /-- Call of `close` on a descriptor. -/
  | close (fd : Int)
  /-- Call of `kill` with this pid argument and signal. -/
  | kill (pid : Int) (sig : Int)
  /-- Call of `waitpid` on this pid. -/
  | waitpid (pid : Int)
  /-- Call of `posix_spawn` with these arguments. -/
  | posix_spawn (rq : SpawnRequest)
deriving DecidableEq, Repr

/-- An execution: the calls made, in order, and how it ended. -/
structure Run (α : Type) where
  log : List Event
  out : Outcome α
deriving DecidableEq, Repr

/-! ## `Subprocess::OnPipeReady` -/

/-- Result of `read(fd_, buf, sizeof(buf))`: the return value and the buffer
contents. -/
structure ReadResult where
  len : Int
  buf : List Nat
deriving DecidableEq, Repr

/-- Code of `Subprocess::OnPipeReady`; `r` is what `read` gives.  Under
`TARGET_OS_IPHONE` the body is empty. -/
def Subprocess.OnPipeReady (b : Build) (self : Subprocess) (r : ReadResult) :
    Outcome Subprocess :=
  if b.TARGET_OS_IPHONE then Outcome.returned self
  else if r.len > 0 then
    Outcome.returned { self with buf_ := self.buf_ ++ r.buf.take r.len.toNat }
  else if r.len < 0 then Fatal "read"
  else Outcome.returned { self with fd_ := -1 }

/-! ## `SubprocessSet` -/

/-- Code of `SubprocessSet::SetInterruptedFlag`, the signal handler. -/
def SubprocessSet.SetInterruptedFlag (self : SubprocessSet) (signum : Int) : SubprocessSet :=
  { self with interrupted_ := signum }

/-- Code of `SubprocessSet::HandlePendingInterruption`; `pending` is the set
written by `sigpending`, or `none` when `sigpending` returned -1. -/
def SubprocessSet.HandlePendingInterruption (self : SubprocessSet)
    (pending : Option (List Int)) : List Event × SubprocessSet :=
  match pending with
  | none => ([Event.perror "ninja: sigpending"], self)
  | some p =>
    if SIGINT ∈ p then ([], { self with interrupted_ := SIGINT })
    else if SIGTERM ∈ p then ([], { self with interrupted_ := SIGTERM })
    else if SIGHUP ∈ p then ([], { self with interrupted_ := SIGHUP })
    else ([], self)

/-- What the multiplex wait (`pselect` or `ppoll`) gives. -/
inductive WaitResult (ρ : Type) where
  /-- The call returned -1 with this `errno`; `caught` is the value the signal
  handler left in `interrupted_` while the wait had the signals unblocked
  (0 when no handler ran). -/
  | failed (errno : Int) (caught : Int)
  /-- The call returned another value; `ready` is the readiness it reported.
  No handler ran during such a wait: a caught signal makes the call fail with
  EINTR. -/
  | returned (ready : ρ)

/-- Results of the system calls made during one `DoWork`. -/
structure DoWorkEnv where
  /-- Call `ppoll(&fds.front(), nfds, NULL, &old_mask_)`, given the `fd` fields
  of `fds`; the readiness is `revents` by index. -/
  ppoll : List Int → WaitResult (Nat → Int)
  /-- Call `pselect(nfds, &set, 0, 0, 0, &old_mask_)`, given `nfds` and the
  members of `set`; the readiness is the members of `set` afterwards. -/
  pselect : Int → List Nat → WaitResult (List Nat)
  /-- Call `sigpending(&pending)`. -/
  sigpending : Option (List Int)
  /-- Call `read(fd_, buf, sizeof(buf))` by descriptor. -/
  read : Int → ReadResult

/-- Macro `FD_SET(fd, &set)` for a descriptor that is `>= 0`.  An `fd_set`
holds the descriptors below `FD_SETSIZE` and is modelled by the list of its
members; POSIX leaves the macro undefined on any other descriptor (`none`),
which is why `Start` refuses them in this variant. -/
def FD_SET (b : Build) (fd : Int) (set : List Nat) : Option (List Nat) :=
  if fd < (b.FD_SETSIZE : Int) then some (set ++ [fd.toNat]) else none

/-- First loop of the pselect `DoWork`: `FD_SET` every descriptor that is
`>= 0` and keep `nfds` above it. -/
def fdSetLoop (b : Build) : List Subprocess → List Nat → Int → Option (List Nat × Int)
  | [], set, nfds => some (set, nfds)
  | c :: cs, set, nfds =>
    if c.fd_ ≥ 0 then
      match FD_SET b c.fd_ set with
      | none => none
      | some set1 => fdSetLoop b cs set1 (if nfds < c.fd_ + 1 then c.fd_ + 1 else nfds)
    else fdSetLoop b cs set nfds

/-- Macro `FD_ISSET(fd, &set)` for a descriptor that is `>= 0`; the second loop
only asks about descriptors the first loop has put through `FD_SET`. -/
def FD_ISSET (fd : Int) (set : List Nat) : Bool :=
  decide (fd.toNat ∈ set)

/-- Second loop of the pselect `DoWork`.  `rest` is the part of `running_` from
the iterator on, `kept` the part before it. -/
def pselectLoop (b : Build) (set : List Nat) (read : Int → ReadResult) :
    List Subprocess → List Subprocess → List Subprocess → List Event →
    Run (List Subprocess × List Subprocess)
  | [], kept, finished, log => ⟨log, Outcome.returned (kept, finished)⟩
  | c :: cs, kept, finished, log =>
    if b.TARGET_OS_IPHONE || (decide (c.fd_ ≥ 0) && FD_ISSET c.fd_ set) then
      match c.OnPipeReady b (read c.fd_) with
      | Outcome.returned c1 =>
        if c1.Done then
          pselectLoop b set read cs kept (finished ++ [c1]) (log ++ [Event.OnPipeReady c])
        else
          pselectLoop b set read cs (kept ++ [c1]) finished (log ++ [Event.OnPipeReady c])
      | Outcome.fatal w => ⟨log ++ [Event.OnPipeReady c], Outcome.fatal w⟩
      | Outcome.abort => ⟨log ++ [Event.OnPipeReady c], Outcome.abort⟩
      | Outcome.undefined => ⟨log ++ [Event.OnPipeReady c], Outcome.undefined⟩
    else pselectLoop b set read cs (kept ++ [c]) finished log

/-- Code of the pselect variant of `SubprocessSet::DoWork`. -/
def SubprocessSet.DoWork_pselect (b : Build) (self : SubprocessSet) (e : DoWorkEnv) :
    Run (Bool × SubprocessSet) :=
  if b.TARGET_OS_IPHONE then
    let r := pselectLoop b [] e.read self.running_ [] self.finished_ []
    match r.out with
    | Outcome.returned (kept, finished) =>
      ⟨r.log, Outcome.returned (false, { self with running_ := kept, finished_ := finished })⟩
    | Outcome.fatal w => ⟨r.log, Outcome.fatal w⟩
    | Outcome.abort => ⟨r.log, Outcome.abort⟩
    | Outcome.undefined => ⟨r.log, Outcome.undefined⟩
  else
    match fdSetLoop b self.running_ [] 0 with
    | none => ⟨[], Outcome.undefined⟩
    | some (set, nfds) =>
      let self0 := { self with interrupted_ := 0 }
      match e.pselect nfds set with
      | WaitResult.failed errno caught =>
        let self1 := self0.SetInterruptedFlag caught
        if errno ≠ EINTR then
          ⟨[Event.perror "ninja: pselect"], Outcome.returned (false, self1)⟩
        else ⟨[], Outcome.returned (self1.IsInterrupted, self1)⟩
      | WaitResult.returned ready =>
        let (plog, self1) := self0.HandlePendingInterruption e.sigpending
        if self1.IsInterrupted then ⟨plog, Outcome.returned (true, self1)⟩
        else
          let r := pselectLoop b ready e.read self1.running_ [] self1.finished_ plog
          match r.out with
          | Outcome.returned (kept, finished) =>
            let self2 := { self1 with running_ := kept, finished_ := finished }
            ⟨r.log, Outcome.returned (self2.IsInterrupted, self2)⟩
          | Outcome.fatal w => ⟨r.log, Outcome.fatal w⟩
          | Outcome.abort => ⟨r.log, Outcome.abort⟩
          | Outcome.undefined => ⟨r.log, Outcome.undefined⟩

/-- First loop of the ppoll `DoWork`: one `pollfd` per child whose descriptor
is `>= 0`; the list holds the `fd` fields, `nfds` is its length. -/
def pollfdLoop : List Subprocess → List Int → List Int
  | [], fds => fds
  | c :: cs, fds =>
    if c.fd_ < 0 then pollfdLoop cs fds
    else pollfdLoop cs (fds ++ [c.fd_])

/-- Second loop of the ppoll `DoWork`, run for at most `fuel` iterations
(`none`: still looping).  `rest` is the part of `running_` from the iterator
on, `kept` the part before it.  A child with `fd_ < 0` takes the `continue`
that does not advance the iterator. -/
def ppollLoop (b : Build) (fds : List Int) (revents : Nat → Int) (read : Int → ReadResult) :
    Nat → Nat → List Subprocess → List Subprocess → List Subprocess → List Event →
    Option (Run (List Subprocess × List Subprocess))
  | 0, _, _, _, _, _ => none
  | _ + 1, _, [], kept, finished, log => some ⟨log, Outcome.returned (kept, finished)⟩
  | fuel + 1, cur_nfd, c :: cs, kept, finished, log =>
    if c.fd_ < 0 then ppollLoop b fds revents read fuel cur_nfd (c :: cs) kept finished log
    else if !b.NDEBUG && decide (fds[cur_nfd]? ≠ some c.fd_) then some ⟨log, Outcome.abort⟩
    else if revents cur_nfd ≠ 0 then
      match c.OnPipeReady b (read c.fd_) with
      | Outcome.returned c1 =>
        if c1.Done then
          ppollLoop b fds revents read fuel (cur_nfd + 1) cs kept (finished ++ [c1])
            (log ++ [Event.OnPipeReady c])
        else
          ppollLoop b fds revents read fuel (cur_nfd + 1) cs (kept ++ [c1]) finished
            (log ++ [Event.OnPipeReady c])
      | Outcome.fatal w => some ⟨log ++ [Event.OnPipeReady c], Outcome.fatal w⟩
      | Outcome.abort => some ⟨log ++ [Event.OnPipeReady c], Outcome.abort⟩
      | Outcome.undefined => some ⟨log ++ [Event.OnPipeReady c], Outcome.undefined⟩
    else ppollLoop b fds revents read fuel (cur_nfd + 1) cs (kept ++ [c]) finished log

/-- Code of the ppoll variant of `SubprocessSet::DoWork`; `fuel` bounds the
iterations of its second loop.  The address `&fds.front()` is only handed on
to `ppoll`, whose result the environment gives. -/
def SubprocessSet.DoWork_ppoll (b : Build) (self : SubprocessSet) (e : DoWorkEnv) (fuel : Nat) :
    Option (Run (Bool × SubprocessSet)) :=
  let fds := pollfdLoop self.running_ []
  let self0 := { self with interrupted_ := 0 }
  match e.ppoll fds with
  | WaitResult.failed errno caught =>
    let self1 := self0.SetInterruptedFlag caught
    if errno ≠ EINTR then
      some ⟨[Event.perror "ninja: ppoll"], Outcome.returned (false, self1)⟩
    else some ⟨[], Outcome.returned (self1.IsInterrupted, self1)⟩
  | WaitResult.returned revents =>
    let (plog, self1) := self0.HandlePendingInterruption e.sigpending
    if self1.IsInterrupted then some ⟨plog, Outcome.returned (true, self1)⟩
    else
      match ppollLoop b fds revents e.read fuel 0 self1.running_ [] self1.finished_ plog with
      | none => none
      | some r =>
        match r.out with
        | Outcome.returned (kept, finished) =>
          let self2 := { self1 with running_ := kept, finished_ := finished }
          some ⟨r.log, Outcome.returned (self2.IsInterrupted, self2)⟩
        | Outcome.fatal w => some ⟨r.log, Outcome.fatal w⟩
        | Outcome.abort => some ⟨r.log, Outcome.abort⟩
        | Outcome.undefined => some ⟨r.log, Outcome.undefined⟩

/-- The `DoWork` the build compiles: the ppoll variant under `USE_PPOLL`, the
pselect variant otherwise. -/
def SubprocessSet.DoWork (b : Build) (self : SubprocessSet) (e : DoWorkEnv) (fuel : Nat) :
    Option (Run (Bool × SubprocessSet)) :=
  if b.USE_PPOLL then self.DoWork_ppoll b e fuel
  else some (self.DoWork_pselect b e)

/-- Code of `SubprocessSet::NextFinished`; `none` is the null pointer. -/
def SubprocessSet.NextFinished (self : SubprocessSet) : Option Subprocess × SubprocessSet :=
  match self.finished_ with
  | [] => (none, self)
  | subproc :: rest => (some subproc, { self with finished_ := rest })

/-- Code of `Subprocess::~Subprocess`; `w` is what `waitpid` gives if `Finish`
is called.  The `Fatal` of a failed reap is swallowed by the `catch` when it
is an exception and ends the process otherwise. -/
def Subprocess.destroy (b : Build) (m : WaitMacros) (self : Subprocess) (w : WaitpidResult) :
    Run Unit :=
  let closeLog := if self.fd_ ≥ 0 then [Event.close self.fd_] else []
  if self.pid_ ≠ -1 then
    match self.Finish b m w with
    | Outcome.returned _ => ⟨closeLog ++ [Event.waitpid self.pid_], Outcome.returned ()⟩
    | Outcome.fatal what =>
      if b.FATAL_THROWS then ⟨closeLog ++ [Event.waitpid self.pid_], Outcome.returned ()⟩
      else ⟨closeLog ++ [Event.waitpid self.pid_], Outcome.fatal what⟩
    | Outcome.abort => ⟨closeLog, Outcome.abort⟩
    | Outcome.undefined => ⟨closeLog, Outcome.undefined⟩
  else ⟨closeLog, Outcome.returned ()⟩

/-- First loop of `SubprocessSet::Clear`: `kill(-pid_, interrupted_)` for each
child that is not in console mode. -/
def killLoop (interrupted : Int) : List Subprocess → List Event
  | [] => []
  | c :: cs =>
    if !c.use_console_ then Event.kill (-c.pid_) interrupted :: killLoop interrupted cs
    else killLoop interrupted cs

/-- Second loop of `SubprocessSet::Clear`: `delete` each child in turn. -/
def deleteLoop (b : Build) (m : WaitMacros) (waitpid : Int → WaitpidResult) :
    List Subprocess → List Event → Run Unit
  | [], log => ⟨log, Outcome.returned ()⟩
  | c :: cs, log =>
    let r := c.destroy b m (waitpid c.pid_)
    match r.out with
    | Outcome.returned _ => deleteLoop b m waitpid cs (log ++ r.log)
    | Outcome.fatal what => ⟨log ++ r.log, Outcome.fatal what⟩
    | Outcome.abort => ⟨log ++ r.log, Outcome.abort⟩
    | Outcome.undefined => ⟨log ++ r.log, Outcome.undefined⟩

/-- Code of `SubprocessSet::Clear`; `waitpid` gives the result of each reap by
pid. -/
def SubprocessSet.Clear (b : Build) (m : WaitMacros) (self : SubprocessSet)
    (waitpid : Int → WaitpidResult) : Run SubprocessSet :=
  let r := deleteLoop b m waitpid self.running_ (killLoop self.interrupted_ self.running_)
  match r.out with
  | Outcome.returned _ => ⟨r.log, Outcome.returned { self with running_ := [] }⟩
  | Outcome.fatal what => ⟨r.log, Outcome.fatal what⟩
  | Outcome.abort => ⟨r.log, Outcome.abort⟩
  | Outcome.undefined => ⟨r.log, Outcome.undefined⟩

/-! ## `Subprocess::Start` and `SubprocessSet::Add` -/

/-- The calls of the `posix_spawn` family in `Start`, in source order. -/
inductive SpawnCall where
  | file_actions_init
  | addclose_read
  | attr_init
  | setsigmask
  | addopen
  | adddup2_stdout
  | adddup2_stderr
  | addclose_write
  | setflags
  | spawn
  | attr_destroy
  | file_actions_destroy
deriving DecidableEq, Repr

/-- Results of the system calls made during one `Start`. -/
structure StartEnv where
  /-- Call `pipe(output_pipe)`: `none` when it returned a negative value,
  otherwise the two descriptors written. -/
  pipe : Option (Nat × Nat)
  /-- Error number returned by each call of the `posix_spawn` family. -/
  err : SpawnCall → Int
  /-- Process id written by `posix_spawn`. -/
  pid : Int
  /-- Under `TARGET_OS_IPHONE`: result of the `read` on the output stream. -/
  nosystem_read : ReadResult

/-- Code of `Subprocess::Start`, from `posix_spawn_file_actions_init` up to the
end of the `if (!use_console_)` block: the flags set so far and the file
actions added, or the `Fatal` of the first call that fails. -/
def Subprocess.spawnSetup (use_console : Bool) (p0 p1 : Nat) (e : StartEnv) :
    Outcome (SpawnFlags × List FileAction) :=
  if e.err SpawnCall.file_actions_init ≠ 0 then Fatal "posix_spawn_file_actions_init"
  else if e.err SpawnCall.addclose_read ≠ 0 then Fatal "posix_spawn_file_actions_addclose"
  else if e.err SpawnCall.attr_init ≠ 0 then Fatal "posix_spawnattr_init"
  else if e.err SpawnCall.setsigmask ≠ 0 then Fatal "posix_spawnattr_setsigmask"
  else if !use_console then
    if e.err SpawnCall.addopen ≠ 0 then Fatal "posix_spawn_file_actions_addopen"
    else if e.err SpawnCall.adddup2_stdout ≠ 0 then Fatal "posix_spawn_file_actions_adddup2"
    else if e.err SpawnCall.adddup2_stderr ≠ 0 then Fatal "posix_spawn_file_actions_adddup2"
    else if e.err SpawnCall.addclose_write ≠ 0 then Fatal "posix_spawn_file_actions_addclose"
    else
      Outcome.returned
        ({ SETSIGMASK := true, SETPGROUP := true, USEVFORK := false },
         [FileAction.addclose (p0 : Int),
          FileAction.addopen 0 "/dev/null" "O_RDONLY" 0,
          FileAction.adddup2 (p1 : Int) 1,
          FileAction.adddup2 (p1 : Int) 2,
          FileAction.addclose (p1 : Int)])
  else
    Outcome.returned
      ({ SETSIGMASK := true, SETPGROUP := false, USEVFORK := false },
       [FileAction.addclose (p0 : Int)])

/-- Code of `Subprocess::Start`, from `#ifdef POSIX_SPAWN_USEVFORK` up to
`close(output_pipe[1])`: the flags are stored, the child is spawned with the
mask `set->old_mask_` stored in the attributes, and both objects are
destroyed. -/
def Subprocess.spawn (b : Build) (self : Subprocess) (set : SubprocessSet) (command : String)
    (p1 : Nat) (flags1 : SpawnFlags) (action : List FileAction) (e : StartEnv) :
    Run (Bool × Subprocess) :=
  let flags := if b.POSIX_SPAWN_USEVFORK then { flags1 with USEVFORK := true } else flags1
  if e.err SpawnCall.setflags ≠ 0 then ⟨[], Fatal "posix_spawnattr_setflags"⟩
  else
    let rq : SpawnRequest :=
      { path := "/bin/sh", file_actions := action,
        attr := { flags := flags, sigmask := some set.old_mask_ },
        argv := ["/bin/sh", "-c", command] }
    if e.err SpawnCall.spawn ≠ 0 then ⟨[Event.posix_spawn rq], Fatal "posix_spawn"⟩
    else if e.err SpawnCall.attr_destroy ≠ 0 then
      ⟨[Event.posix_spawn rq], Fatal "posix_spawnattr_destroy"⟩
    else if e.err SpawnCall.file_actions_destroy ≠ 0 then
      ⟨[Event.posix_spawn rq], Fatal "posix_spawn_file_actions_destroy"⟩
    else
      ⟨[Event.posix_spawn rq, Event.close (p1 : Int)],
        Outcome.returned (true, { self with pid_ := e.pid })⟩

/-- Code of `Subprocess::Start`, the `TARGET_OS_IPHONE` branch: the command has
run inside `nosystem_system` when it returns; `pid_` is -1 and `buf_` holds
the first `max(nout, 0)` bytes read.  The descriptors this branch opens and
closes leave no trace in the fields. -/
def Subprocess.nosystemStart (self : Subprocess) (e : StartEnv) : Run (Bool × Subprocess) :=
  let nout := e.nosystem_read.len
  let tempOutput := e.nosystem_read.buf.take (max nout 0).toNat
  ⟨[], Outcome.returned (true, { self with pid_ := -1, buf_ := tempOutput })⟩

/-- Code of `Subprocess::Start`.  `SetCloseOnExec` leaves no trace in the
fields. -/
def Subprocess.Start (b : Build) (self : Subprocess) (set : SubprocessSet) (command : String)
    (e : StartEnv) : Run (Bool × Subprocess) :=
  match e.pipe with
  | none => ⟨[], Fatal "pipe"⟩
  | some (p0, p1) =>
    let self1 := { self with fd_ := (p0 : Int) }
    if !b.USE_PPOLL && decide (self1.fd_ ≥ (b.FD_SETSIZE : Int)) then ⟨[], Fatal "pipe"⟩
    else if !b.TARGET_OS_IPHONE then
      match Subprocess.spawnSetup self1.use_console_ p0 p1 e with
      | Outcome.fatal what => ⟨[], Outcome.fatal what⟩
      | Outcome.abort => ⟨[], Outcome.abort⟩
      | Outcome.undefined => ⟨[], Outcome.undefined⟩
      | Outcome.returned (flags1, action) => self1.spawn b set command p1 flags1 action e
    else self1.nosystemStart e

/-- Code of `SubprocessSet::Add`; the pointer returned is modelled by the child
itself, `none` being the null pointer. -/
def SubprocessSet.Add (b : Build) (self : SubprocessSet) (command : String) (use_console : Bool)
    (e : StartEnv) : Run (Option Subprocess × SubprocessSet) :=
  let subprocess := Subprocess.new use_console
  let r := subprocess.Start b self command e
  match r.out with
  | Outcome.fatal what => ⟨r.log, Outcome.fatal what⟩
  | Outcome.abort => ⟨r.log, Outcome.abort⟩
  | Outcome.undefined => ⟨r.log, Outcome.undefined⟩
  | Outcome.returned (ok, subprocess1) =>
    if !ok then ⟨r.log, Outcome.returned (none, self)⟩
    else if !b.TARGET_OS_IPHONE then
      ⟨r.log, Outcome.returned
        (some subprocess1, { self with running_ := self.running_ ++ [subprocess1] })⟩
    else
      ⟨r.log, Outcome.returned
        (some subprocess1, { self with finished_ := self.finished_ ++ [subprocess1] })⟩

/-- Results of the system calls made by the constructor of `SubprocessSet`. -/
structure CtorEnv where
  /-- Call `sigprocmask(SIG_BLOCK, &set, &old_mask_)`: `none` when it returned a
  negative value, otherwise the previous mask. -/
  sigprocmask : Option (List Int)
  /-- Return value of `sigaction` by signal. -/
  sigaction : Int → Int

/-- Code of `SubprocessSet::SubprocessSet`; `interrupted` is the current value
of the static member `interrupted_`. -/
def SubprocessSet.new (interrupted : Int) (e : CtorEnv) : Outcome SubprocessSet :=
  match e.sigprocmask with
  | none => Fatal "sigprocmask"
  | some old =>
    if e.sigaction SIGINT < 0 then Fatal "sigaction"
    else if e.sigaction SIGTERM < 0 then Fatal "sigaction"
    else if e.sigaction SIGHUP < 0 then Fatal "sigaction"
    else Outcome.returned
      { running_ := [], finished_ := [], interrupted_ := interrupted, old_mask_ := old }

/-! ## Reachable states -/

/-- One call of `Add`, `DoWork`, `NextFinished` or `Clear` that returns to its
caller, from the state before to the state after. -/
inductive Step (b : Build) (m : WaitMacros) : SubprocessSet → SubprocessSet → Prop where
  | add (s : SubprocessSet) (command : String) (use_console : Bool) (e : StartEnv)
      (log : List Event) (p : Option Subprocess) (t : SubprocessSet)
      (h : s.Add b command use_console e = ⟨log, Outcome.returned (p, t)⟩) : Step b m s t
  | doWork (s : SubprocessSet) (e : DoWorkEnv) (fuel : Nat)
      (log : List Event) (r : Bool) (t : SubprocessSet)
      (h : s.DoWork b e fuel = some ⟨log, Outcome.returned (r, t)⟩) : Step b m s t
  | nextFinished (s : SubprocessSet) : Step b m s s.NextFinished.2
  | clear (s : SubprocessSet) (waitpid : Int → WaitpidResult)
      (log : List Event) (t : SubprocessSet)
      (h : s.Clear b m waitpid = ⟨log, Outcome.returned t⟩) : Step b m s t

/-- States of a `SubprocessSet` from its construction on. -/
inductive Reachable (b : Build) (m : WaitMacros) : SubprocessSet → Prop where
  | init (interrupted : Int) (e : CtorEnv) (s : SubprocessSet)
      (h : SubprocessSet.new interrupted e = Outcome.returned s) : Reachable b m s
  | step (s t : SubprocessSet) (hs : Reachable b m s) (ht : Step b m s t) : Reachable b m t

/-- The invariant of the data model: descriptors of running children are
`>= 0`, descriptors of finished children are `-1`. -/
def SubprocessSet.Inv (s : SubprocessSet) : Prop :=
  (∀ c ∈ s.running_, c.fd_ ≥ 0) ∧ (∀ c ∈ s.finished_, c.fd_ = -1)

/-- A descriptor `Start` accepts: `>= 0`, and below `FD_SETSIZE` where the
pselect variant is compiled. -/
def okFd (b : Build) (fd : Int) : Prop :=
  0 ≤ fd ∧ (b.USE_PPOLL = false → fd < (b.FD_SETSIZE : Int))

/-- The part of the invariant that every build keeps: running children have a
descriptor `Start` accepts, and without `TARGET_OS_IPHONE` finished children
have -1. -/
def SubprocessSet.BuildInv (b : Build) (s : SubprocessSet) : Prop :=
  (∀ c ∈ s.running_, okFd b c.fd_) ∧
  (b.TARGET_OS_IPHONE = false → ∀ c ∈ s.finished_, c.fd_ = -1)

/-! ## Vocabulary of the statements -/

/-- A child whose descriptor is `>= 0` and a member of the ready set `R`. -/
def inReady (R : List Nat) (c : Subprocess) : Bool :=
  decide (0 ≤ c.fd_ ∧ c.fd_.toNat ∈ R)

/-- A child of the ready set whose `read` returns 0: end of stream. -/
def readsEnd (R : List Nat) (read : Int → ReadResult) (c : Subprocess) : Bool :=
  inReady R c && decide ((read c.fd_).len = 0)

/-- The child after a `read` that returned bytes. -/
def appended (read : Int → ReadResult) (c : Subprocess) : Subprocess :=
  { c with buf_ := c.buf_ ++ (read c.fd_).buf.take (read c.fd_).len.toNat }

/-- The child after its descriptor was closed. -/
def closed (c : Subprocess) : Subprocess :=
  { c with fd_ := -1 }

/-- A child that stays in `running_`: drained if it is in the ready set,
untouched otherwise. -/
def afterDrain (R : List Nat) (read : Int → ReadResult) (c : Subprocess) : Subprocess :=
  if inReady R c then appended read c else c

/-- The calls the destructor of a child makes: `close` when the descriptor is
still open, `waitpid` when the child was not reaped. -/
def destroyEvents (c : Subprocess) : List Event :=
  (if c.fd_ ≥ 0 then [Event.close c.fd_] else []) ++
  (if c.pid_ ≠ -1 then [Event.waitpid c.pid_] else [])

/-- The signal sent by `Clear` to the process group of a child. -/
def groupKill (interrupted : Int) (c : Subprocess) : Event :=
  Event.kill (-c.pid_) interrupted

/-- The request `Start` is expected to hand to `posix_spawn`, given the console
flag, the saved mask, the command and the two ends of the pipe. -/
def startRequest (b : Build) (use_console : Bool) (old_mask : List Int) (command : String)
    (p0 p1 : Nat) : SpawnRequest :=
  { path := "/bin/sh"
    file_actions := FileAction.addclose (p0 : Int) ::
      (if use_console then []
       else [FileAction.addopen 0 "/dev/null" "O_RDONLY" 0,
             FileAction.adddup2 (p1 : Int) 1,
             FileAction.adddup2 (p1 : Int) 2,
             FileAction.addclose (p1 : Int)])
    attr :=
      { flags :=
          { SETSIGMASK := true, SETPGROUP := !use_console, USEVFORK := b.POSIX_SPAWN_USEVFORK }
        sigmask := some old_mask }
    argv := ["/bin/sh", "-c", command] }

/-- The two waits gave the same thing: both failed with the same `errno` and
the same handler value, or both returned and the entry `i` of `fds` has events
exactly when its descriptor is a member of the set `pselect` left. -/
def SameWait (fds : List Int) : WaitResult (Nat → Int) → WaitResult (List Nat) → Prop
  | WaitResult.failed errno1 caught1, WaitResult.failed errno2 caught2 =>
    errno1 = errno2 ∧ caught1 = caught2
  | WaitResult.returned revents, WaitResult.returned R =>
    ∀ (i : Nat) (fd : Int), fds[i]? = some fd → (revents i ≠ 0 ↔ fd.toNat ∈ R)
  | _, _ => False

/-! ## Concrete builds and inputs -/

/-- A build with `USE_PPOLL` (Linux). -/
def ppollBuild : Build :=
  { USE_PPOLL := true, TARGET_OS_IPHONE := false, AIX := false, POSIX_SPAWN_USEVFORK := true,
    NDEBUG := false, FD_SETSIZE := 1024, FATAL_THROWS := false }

/-- A build without any of the switches: pselect variant, real spawn. -/
def pselectBuild : Build :=
  { USE_PPOLL := false, TARGET_OS_IPHONE := false, AIX := false, POSIX_SPAWN_USEVFORK := false,
    NDEBUG := false, FD_SETSIZE := 1024, FATAL_THROWS := false }

/-- A build with `TARGET_OS_IPHONE`. -/
def iphoneBuild : Build :=
  { USE_PPOLL := false, TARGET_OS_IPHONE := true, AIX := false, POSIX_SPAWN_USEVFORK := false,
    NDEBUG := false, FD_SETSIZE := 1024, FATAL_THROWS := false }

/-- A build with `_AIX`. -/
def aixBuild : Build :=
  { USE_PPOLL := false, TARGET_OS_IPHONE := false, AIX := true, POSIX_SPAWN_USEVFORK := false,
    NDEBUG := false, FD_SETSIZE := 1024, FATAL_THROWS := false }

/-- A set right after construction, nothing blocked before. -/
def emptySet : SubprocessSet :=
  { running_ := [], finished_ := [], interrupted_ := 0, old_mask_ := [] }

/-- A started child reading from the given descriptor. -/
def childOn (fd pid : Int) (console : Bool) : Subprocess :=
  { buf_ := [], fd_ := fd, pid_ := pid, use_console_ := console }

/-- An environment for `DoWork` in which both waits give the same thing. -/
def envOf (pselect : WaitResult (List Nat)) (ppoll : WaitResult (Nat → Int))
    (sigpending : Option (List Int)) (read : Int → ReadResult) : DoWorkEnv :=
  { ppoll := fun _ => ppoll, pselect := fun _ _ => pselect, sigpending := sigpending,
    read := read }

/-- A constructor environment in which every call succeeds and no signal was
blocked before. -/
def okCtor : CtorEnv :=
  { sigprocmask := some [], sigaction := fun _ => 0 }

/-- A `Start` environment in which every call succeeds: the pipe is (5, 6), the
new process is 100, and under `TARGET_OS_IPHONE` the command wrote `hi\n`. -/
def okStart : StartEnv :=
  { pipe := some (5, 6), err := fun _ => 0, pid := 100, nosystem_read := ⟨3, [104, 105, 10]⟩ }

/-- A wait status in the usual layout for a normal exit with this code. -/
def exitedWith (code : Int) : Int := code * 256

/-! ## `Finish` -/

theorem posixWait_exclusive : posixWait.Exclusive := by
  intro s h
  simp [posixWait] at h
  omega

theorem classify_interrupted (m : WaitMacros) (hm : m.Exclusive) (s : Int) :
    classify m s = ExitStatus.ExitInterrupted ↔
      (m.WIFSIGNALED s = true ∧
        (m.WTERMSIG s = SIGINT ∨ m.WTERMSIG s = SIGTERM ∨ m.WTERMSIG s = SIGHUP)) := by
  have hx := hm s
  unfold classify
  by_cases h1 : m.WIFEXITED s = true
  · have h2 : m.WIFSIGNALED s ≠ true := fun h => hx ⟨h1, h⟩
    by_cases h3 : m.WEXITSTATUS s = 0 <;> simp [h1, h2, h3]
  · by_cases h2 : m.WIFSIGNALED s = true
    · by_cases h3 : m.WTERMSIG s = SIGINT ∨ m.WTERMSIG s = SIGTERM ∨ m.WTERMSIG s = SIGHUP
      · simp [h1, h2, h3]
      · simp [h1, h2, h3]
    · simp [h1, h2]

theorem classify_success (m : WaitMacros) (s : Int) :
    classify m s = ExitStatus.ExitSuccess ↔ (m.WIFEXITED s = true ∧ m.WEXITSTATUS s = 0) := by
  unfold classify
  by_cases h1 : m.WIFEXITED s = true
  · by_cases h3 : m.WEXITSTATUS s = 0 <;> simp [h1, h3]
  · by_cases h2 : m.WIFSIGNALED s = true
    · by_cases h3 : m.WTERMSIG s = SIGINT ∨ m.WTERMSIG s = SIGTERM ∨ m.WTERMSIG s = SIGHUP
      · simp [h1, h2, h3]
      · simp [h1, h2, h3]
    · simp [h1, h2]

theorem classify_failure (m : WaitMacros) (hm : m.Exclusive) (s : Int) :
    classify m s = ExitStatus.ExitFailure ↔
      (¬ (m.WIFSIGNALED s = true ∧
          (m.WTERMSIG s = SIGINT ∨ m.WTERMSIG s = SIGTERM ∨ m.WTERMSIG s = SIGHUP)) ∧
       ¬ (m.WIFEXITED s = true ∧ m.WEXITSTATUS s = 0)) := by
  rw [← classify_interrupted m hm, ← classify_success m]
  cases classify m s <;> simp

theorem aixRemap_unchanged (b : Build) (m : WaitMacros) (status : Int)
    (h : b.AIX = false ∨ m.WIFEXITED status = false ∨
      Int.land (m.WEXITSTATUS status) 0x80 = 0) :
    aixRemap b m status = status := by
  unfold aixRemap
  rcases h with h | h | h <;> simp [h]

theorem aixRemap_rewritten (b : Build) (m : WaitMacros) (status : Int)
    (h1 : b.AIX = true) (h2 : m.WIFEXITED status = true)
    (h3 : Int.land (m.WEXITSTATUS status) 0x80 ≠ 0) :
    aixRemap b m status =
      Int.lor (Int.land (m.WEXITSTATUS status) 0x7f * 65536)
        (Int.land (m.WEXITSTATUS status) 0x7f) := by
  unfold aixRemap
  simp [h1, h2, h3]

theorem aixWait_exclusive : aixWait.Exclusive := by
  intro s h
  simp [aixWait] at h
  omega

/-- C1 (as amended).  After a reap that succeeds, `Finish` returns and leaves
`pid_ = -1`.  On a status that is not rewritten (no `_AIX`, or not a normal
exit, or an exit code without bit `0x80`) the result is `ExitInterrupted`
exactly when the process was terminated by SIGINT, SIGTERM or SIGHUP,
`ExitSuccess` exactly when it exited normally with code 0, and `ExitFailure`
in every other case.  With `_AIX`, a normal exit whose code has bit `0x80`
set and carries the signal number `N = code & 0x7f`, where the macros read
`(N << 16) | N` back as a termination by signal `N`, is classified as that
termination: `ExitInterrupted` exactly when `N` is SIGINT, SIGTERM or SIGHUP,
`ExitFailure` otherwise. -/
theorem Finish_classifies (b : Build) (m : WaitMacros) (hm : m.Exclusive) (self : Subprocess)
    (w : WaitpidResult) (hpre : b.NDEBUG = true ∨ self.pid_ ≠ -1) (hw : 0 ≤ w.ret) :
    ∃ r : ExitStatus,
      self.Finish b m w = Outcome.returned (r, { self with pid_ := -1 }) ∧
      ((b.AIX = false ∨ m.WIFEXITED w.status = false ∨
          Int.land (m.WEXITSTATUS w.status) 0x80 = 0) →
        (r = ExitStatus.ExitInterrupted ↔
          (m.WIFSIGNALED w.status = true ∧
            (m.WTERMSIG w.status = SIGINT ∨ m.WTERMSIG w.status = SIGTERM ∨
             m.WTERMSIG w.status = SIGHUP))) ∧
        (r = ExitStatus.ExitSuccess ↔
          (m.WIFEXITED w.status = true ∧ m.WEXITSTATUS w.status = 0)) ∧
        (r = ExitStatus.ExitFailure ↔
          (¬ (m.WIFSIGNALED w.status = true ∧
              (m.WTERMSIG w.status = SIGINT ∨ m.WTERMSIG w.status = SIGTERM ∨
               m.WTERMSIG w.status = SIGHUP)) ∧
           ¬ (m.WIFEXITED w.status = true ∧ m.WEXITSTATUS w.status = 0)))) ∧
      (b.AIX = true → m.WIFEXITED w.status = true →
        Int.land (m.WEXITSTATUS w.status) 0x80 ≠ 0 →
        ∀ N : Int, N = Int.land (m.WEXITSTATUS w.status) 0x7f →
        m.WIFEXITED (Int.lor (N * 65536) N) = false →
        m.WIFSIGNALED (Int.lor (N * 65536) N) = true →
        m.WTERMSIG (Int.lor (N * 65536) N) = N →
        (r = ExitStatus.ExitInterrupted ↔ (N = SIGINT ∨ N = SIGTERM ∨ N = SIGHUP)) ∧
        (r = ExitStatus.ExitFailure ↔ ¬ (N = SIGINT ∨ N = SIGTERM ∨ N = SIGHUP))) := by
  refine ⟨classify m (aixRemap b m w.status), ?_, ?_, ?_⟩
  · have h1 : (!b.NDEBUG && decide (self.pid_ = -1)) = false := by
      rcases hpre with h | h <;> simp [h]
    have h2 : ¬ w.ret < 0 := not_lt.mpr hw
    simp [Subprocess.Finish, h1, h2]
  · intro h
    rw [aixRemap_unchanged b m w.status h]
    exact ⟨classify_interrupted m hm _, classify_success m _, classify_failure m hm _⟩
  · intro h1 h2 h3 N hN hexit hsig hterm
    rw [aixRemap_rewritten b m w.status h1 h2 h3, ← hN]
    have hI := classify_interrupted m hm (Int.lor (N * 65536) N)
    have hF := classify_failure m hm (Int.lor (N * 65536) N)
    rw [hsig, hterm] at hI hF
    rw [hexit] at hF
    constructor
    · rw [hI]; simp
    · rw [hF]; simp

/-- Witness for C1: in the usual layout a child killed by SIGTERM is
`ExitInterrupted`; in an `_AIX` build with the AIX-style layout a child that
exits with 130 = 128 + SIGINT is `ExitInterrupted` and one that exits with
137 = 128 + SIGKILL is `ExitFailure`. -/
theorem Finish_classifies_witness :
    (∃ r : ExitStatus,
      (childOn (-1) 100 false).Finish pselectBuild posixWait ⟨100, 15⟩ =
        Outcome.returned (r, childOn (-1) (-1) false) ∧
      r = ExitStatus.ExitInterrupted) ∧
    (∃ r : ExitStatus,
      (childOn (-1) 100 false).Finish aixBuild aixWait ⟨100, exitedWith 130⟩ =
        Outcome.returned (r, childOn (-1) (-1) false) ∧
      r = ExitStatus.ExitInterrupted) ∧
    (∃ r : ExitStatus,
      (childOn (-1) 100 false).Finish aixBuild aixWait ⟨100, exitedWith 137⟩ =
        Outcome.returned (r, childOn (-1) (-1) false) ∧
      r = ExitStatus.ExitFailure) := by
  refine ⟨?_, ?_, ?_⟩
  · obtain ⟨r, h1, h2, _⟩ := Finish_classifies pselectBuild posixWait posixWait_exclusive
      (childOn (-1) 100 false) ⟨100, 15⟩ (Or.inr (by decide)) (by decide)
    exact ⟨r, h1, (h2 (Or.inl rfl)).1.mpr (by decide)⟩
  · obtain ⟨r, h1, _, h3⟩ := Finish_classifies aixBuild aixWait aixWait_exclusive
      (childOn (-1) 100 false) ⟨100, exitedWith 130⟩ (Or.inr (by decide)) (by decide)
    exact ⟨r, h1, (h3 rfl (by decide) (by decide) 2 (by decide) (by decide) (by decide)
      (by decide)).1.mpr (by decide)⟩
  · obtain ⟨r, h1, _, h3⟩ := Finish_classifies aixBuild aixWait aixWait_exclusive
      (childOn (-1) 100 false) ⟨100, exitedWith 137⟩ (Or.inr (by decide)) (by decide)
    exact ⟨r, h1, (h3 rfl (by decide) (by decide) 9 (by decide) (by decide) (by decide)
      (by decide)).2.mpr (by decide)⟩

/-- C1 fails as stated on an `_AIX` build: a child that exits normally with the
non-zero code 130 is not a termination by signal, and `Finish` returns
`ExitInterrupted` for it, not `ExitFailure`. -/
theorem Finish_aix_exit_130_interrupted :
    aixWait.WIFEXITED (exitedWith 130) = true ∧
    aixWait.WEXITSTATUS (exitedWith 130) = 130 ∧
    aixWait.WIFSIGNALED (exitedWith 130) = false ∧
    (childOn (-1) 100 false).Finish aixBuild aixWait ⟨100, exitedWith 130⟩ =
      Outcome.returned (ExitStatus.ExitInterrupted, childOn (-1) (-1) false) := by
  decide

/-- An exit with code 128 carries the signal number 0: the `_AIX` block
rewrites the status to 0, which the macros read as a normal exit with code 0,
and `Finish` returns `ExitSuccess` for a child that failed. -/
theorem Finish_aix_exit_128_success :
    aixWait.WEXITSTATUS (exitedWith 128) = 128 ∧
    aixRemap aixBuild aixWait (exitedWith 128) = 0 ∧
    (childOn (-1) 100 false).Finish aixBuild aixWait ⟨100, exitedWith 128⟩ =
      Outcome.returned (ExitStatus.ExitSuccess, childOn (-1) (-1) false) := by
  decide

/-- The scenarios of the specification in the usual layout: exit 0 is
`ExitSuccess`, exit 3 is `ExitFailure`, death by SIGINT, SIGTERM or SIGHUP is
`ExitInterrupted`, death by SIGKILL is `ExitFailure`. -/
theorem Finish_scenarios :
    (childOn (-1) 100 false).Finish pselectBuild posixWait ⟨100, exitedWith 0⟩ =
      Outcome.returned (ExitStatus.ExitSuccess, childOn (-1) (-1) false) ∧
    (childOn (-1) 100 false).Finish pselectBuild posixWait ⟨100, exitedWith 3⟩ =
      Outcome.returned (ExitStatus.ExitFailure, childOn (-1) (-1) false) ∧
    (childOn (-1) 100 false).Finish pselectBuild posixWait ⟨100, SIGINT⟩ =
      Outcome.returned (ExitStatus.ExitInterrupted, childOn (-1) (-1) false) ∧
    (childOn (-1) 100 false).Finish pselectBuild posixWait ⟨100, SIGTERM⟩ =
      Outcome.returned (ExitStatus.ExitInterrupted, childOn (-1) (-1) false) ∧
    (childOn (-1) 100 false).Finish pselectBuild posixWait ⟨100, SIGHUP⟩ =
      Outcome.returned (ExitStatus.ExitInterrupted, childOn (-1) (-1) false) ∧
    (childOn (-1) 100 false).Finish pselectBuild posixWait ⟨100, SIGKILL⟩ =
      Outcome.returned (ExitStatus.ExitFailure, childOn (-1) (-1) false) ∧
    (childOn (-1) 100 false).Finish pselectBuild posixWait ⟨-1, 0⟩ = Outcome.fatal "waitpid" := by
  decide

/-! ## `NextFinished` -/

/-- C3.  `NextFinished` is a FIFO pop: on an empty `finished_` it returns null
and changes nothing; otherwise it returns the oldest entry and leaves the
others in order; `running_` is never changed.  After pushes of `B`, `C`, `A`
onto an empty queue, successive calls return `B`, `C`, `A`, then null without
a change. -/
theorem NextFinished_fifo (s : SubprocessSet) (B C A : Subprocess) :
    (s.finished_ = [] → s.NextFinished = (none, s)) ∧
    (∀ c rest, s.finished_ = c :: rest →
      s.NextFinished = (some c, { s with finished_ := rest })) ∧
    s.NextFinished.2.running_ = s.running_ ∧
    (let s0 := { s with finished_ := (([] ++ [B]) ++ [C]) ++ [A] }
     let r1 := s0.NextFinished
     let r2 := r1.2.NextFinished
     let r3 := r2.2.NextFinished
     let r4 := r3.2.NextFinished
     r1.1 = some B ∧ r2.1 = some C ∧ r3.1 = some A ∧ r4.1 = none ∧ r4.2 = r3.2) := by
  refine ⟨?_, ?_, ?_, ?_⟩
  · intro h
    simp [SubprocessSet.NextFinished, h]
  · intro c rest h
    simp [SubprocessSet.NextFinished, h]
  · unfold SubprocessSet.NextFinished
    cases s.finished_ <;> rfl
  · simp [SubprocessSet.NextFinished]

/-- Witness for C3: the pop from a queue of two. -/
theorem NextFinished_fifo_witness :
    ({ emptySet with finished_ := [childOn (-1) 7 false, childOn (-1) 8 false] }).NextFinished =
      (some (childOn (-1) 7 false), { emptySet with finished_ := [childOn (-1) 8 false] }) :=
  (NextFinished_fifo { emptySet with finished_ := [childOn (-1) 7 false, childOn (-1) 8 false] }
    (childOn (-1) 1 false) (childOn (-1) 2 false) (childOn (-1) 3 false)).2.1
    (childOn (-1) 7 false) [childOn (-1) 8 false] rfl

/-! ## `DoWork`: the paths that do not drain -/

/-- The signal `HandlePendingInterruption` records for a pending set. -/
theorem HandlePendingInterruption_some (s : SubprocessSet) (p : List Int)
    (hpend : SIGINT ∈ p ∨ SIGTERM ∈ p ∨ SIGHUP ∈ p) :
    s.HandlePendingInterruption (some p) =
      ([], { s with interrupted_ :=
        if SIGINT ∈ p then SIGINT else if SIGTERM ∈ p then SIGTERM else SIGHUP }) := by
  unfold SubprocessSet.HandlePendingInterruption
  by_cases h1 : SIGINT ∈ p
  · simp [h1]
  · by_cases h2 : SIGTERM ∈ p
    · simp [h1, h2]
    · have h3 : SIGHUP ∈ p := by tauto
      simp [h1, h2, h3]

theorem HandlePendingInterruption_none_pending (s : SubprocessSet) (p : List Int)
    (h1 : SIGINT ∉ p) (h2 : SIGTERM ∉ p) (h3 : SIGHUP ∉ p) :
    s.HandlePendingInterruption (some p) = ([], s) := by
  simp [SubprocessSet.HandlePendingInterruption, h1, h2, h3]

/-- C5 (as amended).  When the multiplex wait fails with an error other than
EINTR, `DoWork` (either variant) calls `perror` and returns false to its
caller; `running_` and `finished_` are as before.  The pselect variant reaches
its wait in a build without `TARGET_OS_IPHONE` once its first loop has built
`set` and `nfds`. -/
theorem DoWork_wait_error_returns_false (b : Build) (s : SubprocessSet) (e : DoWorkEnv)
    (errno caught : Int) (herr : errno ≠ EINTR) :
    (b.TARGET_OS_IPHONE = false →
      ∀ set nfds, fdSetLoop b s.running_ [] 0 = some (set, nfds) →
      e.pselect nfds set = WaitResult.failed errno caught →
      s.DoWork_pselect b e =
        ⟨[Event.perror "ninja: pselect"],
          Outcome.returned (false, { s with interrupted_ := caught })⟩) ∧
    (e.ppoll (pollfdLoop s.running_ []) = WaitResult.failed errno caught →
      ∀ fuel, s.DoWork_ppoll b e fuel =
        some ⟨[Event.perror "ninja: ppoll"],
          Outcome.returned (false, { s with interrupted_ := caught })⟩) := by
  constructor
  · intro hb set nfds hset hwait
    simp [SubprocessSet.DoWork_pselect, hb, hset, hwait, herr, SubprocessSet.SetInterruptedFlag]
  · intro hwait fuel
    simp [SubprocessSet.DoWork_ppoll, hwait, herr, SubprocessSet.SetInterruptedFlag]

/-- Witness for C5: the ppoll variant, one
running child, the wait fails with EBADF. -/
theorem DoWork_wait_error_returns_false_witness :
    ({ emptySet with running_ := [childOn 3 100 false] }).DoWork_ppoll ppollBuild
      (envOf (WaitResult.failed EBADF 0) (WaitResult.failed EBADF 0) (some [])
        (fun _ => ⟨0, []⟩)) 5 =
      some ⟨[Event.perror "ninja: ppoll"],
        Outcome.returned (false, { emptySet with running_ := [childOn 3 100 false] })⟩ :=
  (DoWork_wait_error_returns_false ppollBuild { emptySet with running_ := [childOn 3 100 false] }
    (envOf (WaitResult.failed EBADF 0) (WaitResult.failed EBADF 0) (some [])
      (fun _ => ⟨0, []⟩)) EBADF 0 (by decide)).2 rfl 5

/-- C5 fails as stated: with the wait failing with EBADF, the pselect variant
returns the value false to its caller; it does not end in `Fatal`. -/
theorem DoWork_wait_error_not_fatal :
    (({ emptySet with running_ := [childOn 3 100 false] }).DoWork_pselect pselectBuild
      (envOf (WaitResult.failed EBADF 0) (WaitResult.failed EBADF 0) (some [])
        (fun _ => ⟨0, []⟩))).out =
      Outcome.returned (false, { emptySet with running_ := [childOn 3 100 false] }) := by
  decide

/-- C6 (as amended).  When the wait succeeds and `sigpending` then reports at
least one of SIGINT, SIGTERM, SIGHUP pending, `DoWork` (either variant) sets
`interrupted_` to the first of SIGINT, SIGTERM, SIGHUP that is pending and
returns true without a single `OnPipeReady`: `running_`, `finished_` and every
child in them are as before, whatever the wait reported ready.  The pselect
variant reaches its wait in a build without `TARGET_OS_IPHONE` once its first
loop has built `set` and `nfds`. -/
theorem DoWork_pending_interruption (b : Build) (s : SubprocessSet) (e : DoWorkEnv)
    (p : List Int) (hp : e.sigpending = some p)
    (hpend : SIGINT ∈ p ∨ SIGTERM ∈ p ∨ SIGHUP ∈ p) :
    (b.TARGET_OS_IPHONE = false →
      ∀ set nfds ready, fdSetLoop b s.running_ [] 0 = some (set, nfds) →
      e.pselect nfds set = WaitResult.returned ready →
      s.DoWork_pselect b e =
        ⟨[], Outcome.returned (true, { s with interrupted_ :=
          if SIGINT ∈ p then SIGINT else if SIGTERM ∈ p then SIGTERM else SIGHUP })⟩) ∧
    (∀ revents, e.ppoll (pollfdLoop s.running_ []) = WaitResult.returned revents →
      ∀ fuel, s.DoWork_ppoll b e fuel =
        some ⟨[], Outcome.returned (true, { s with interrupted_ :=
          if SIGINT ∈ p then SIGINT else if SIGTERM ∈ p then SIGTERM else SIGHUP })⟩) := by
  have hsig : (if SIGINT ∈ p then SIGINT else if SIGTERM ∈ p then SIGTERM else SIGHUP) ≠ 0 := by
    split_ifs <;> decide
  constructor
  · intro hb set nfds ready hset hwait
    simp only [SubprocessSet.DoWork_pselect, hb, hset, hwait, hp]
    rw [HandlePendingInterruption_some _ p hpend]
    simp [SubprocessSet.IsInterrupted, hsig]
  · intro revents hwait fuel
    simp only [SubprocessSet.DoWork_ppoll, hwait, hp]
    rw [HandlePendingInterruption_some _ p hpend]
    simp [SubprocessSet.IsInterrupted, hsig]

/-- Witness for C6: SIGTERM and SIGHUP pending, the
only child reported ready; SIGTERM is recorded and nothing is drained. -/
theorem DoWork_pending_interruption_witness :
    ({ emptySet with running_ := [childOn 3 100 false] }).DoWork_pselect pselectBuild
      (envOf (WaitResult.returned [3]) (WaitResult.returned (fun _ => 1))
        (some [SIGHUP, SIGTERM]) (fun _ => ⟨0, []⟩)) =
      ⟨[], Outcome.returned (true,
        { emptySet with running_ := [childOn 3 100 false], interrupted_ := SIGTERM })⟩ :=
  (DoWork_pending_interruption pselectBuild { emptySet with running_ := [childOn 3 100 false] }
    (envOf (WaitResult.returned [3]) (WaitResult.returned (fun _ => 1))
      (some [SIGHUP, SIGTERM]) (fun _ => ⟨0, []⟩)) [SIGHUP, SIGTERM] rfl (by decide)).1
    rfl [3] 4 [3] rfl rfl

/-- C6 fails as stated.  SIGINT was blocked before the set was built, so it
stays blocked during the wait, and it is pending.  The wait returns -1 with
EINTR after a signal that is not one of the three (no handler of the set ran):
SIGINT is pending when the wait returns, and `DoWork` returns false with
`interrupted_` 0. -/
theorem DoWork_eintr_ignores_pending :
    (envOf (WaitResult.failed EINTR 0) (WaitResult.failed EINTR 0) (some [SIGINT])
      (fun _ => ⟨0, []⟩)).sigpending = some [SIGINT] ∧
    ({ emptySet with running_ := [childOn 3 100 false], old_mask_ := [SIGINT] }).DoWork_pselect
      pselectBuild
      (envOf (WaitResult.failed EINTR 0) (WaitResult.failed EINTR 0) (some [SIGINT])
        (fun _ => ⟨0, []⟩)) =
      ⟨[], Outcome.returned (false,
        { emptySet with running_ := [childOn 3 100 false], old_mask_ := [SIGINT] })⟩ := by
  decide

/-- The same state and pending set, the wait interrupted by SIGTERM this time:
`DoWork` returns true with `interrupted_` SIGTERM, the value its handler
stored, and does not look at the pending SIGINT. -/
theorem DoWork_eintr_keeps_handler_value :
    ({ emptySet with running_ := [childOn 3 100 false], old_mask_ := [SIGINT] }).DoWork_pselect
      pselectBuild
      (envOf (WaitResult.failed EINTR SIGTERM) (WaitResult.failed EINTR SIGTERM) (some [SIGINT])
        (fun _ => ⟨0, []⟩)) =
      ⟨[], Outcome.returned (true,
        { emptySet with
          running_ := [childOn 3 100 false]
          old_mask_ := [SIGINT]
          interrupted_ := SIGTERM })⟩ := by
  decide

/-- In a build with `TARGET_OS_IPHONE` the pselect variant does not wait and
does not look at signals: whenever it returns, it returns false. -/
theorem DoWork_pselect_iphone_returns_false (b : Build) (s t : SubprocessSet) (e : DoWorkEnv)
    (log : List Event) (r : Bool) (hb : b.TARGET_OS_IPHONE = true)
    (h : s.DoWork_pselect b e = ⟨log, Outcome.returned (r, t)⟩) : r = false := by
  unfold SubprocessSet.DoWork_pselect at h
  simp only [hb, if_true] at h
  split at h
  · simp at h
    exact h.2.1
  · simp at h
  · simp at h
  · simp at h

/-- A descriptor that is not below `FD_SETSIZE` is outside the domain of
`FD_SET`: the pselect variant has no defined behaviour on such a state. -/
theorem DoWork_pselect_outside_fd_set :
    ({ emptySet with running_ := [childOn 1024 100 false] }).DoWork_pselect pselectBuild
      (envOf (WaitResult.returned [1024]) (WaitResult.returned (fun _ => 1)) (some [])
        (fun _ => ⟨0, []⟩)) = ⟨[], Outcome.undefined⟩ := by
  decide

/-- In the pselect variant `Start` refuses such a descriptor: it ends in
`Fatal` before anything is spawned. -/
theorem Start_refuses_large_descriptor :
    (Subprocess.new false).Start pselectBuild emptySet "echo hi"
      { pipe := some (1024, 1025), err := fun _ => 0, pid := 100, nosystem_read := ⟨0, []⟩ } =
      ⟨[], Outcome.fatal "pipe"⟩ := by
  decide

/-! ## `DoWork`: the drain -/

theorem pselect_cond (b : Build) (hb : b.TARGET_OS_IPHONE = false) (R : List Nat)
    (c : Subprocess) :
    (b.TARGET_OS_IPHONE || (decide (c.fd_ ≥ 0) && FD_ISSET c.fd_ R)) = inReady R c := by
  simp [hb, inReady, FD_ISSET, Bool.decide_and]

theorem OnPipeReady_data (b : Build) (hb : b.TARGET_OS_IPHONE = false) (read : Int → ReadResult)
    (c : Subprocess) (h : 0 < (read c.fd_).len) :
    c.OnPipeReady b (read c.fd_) = Outcome.returned (appended read c) := by
  simp [Subprocess.OnPipeReady, hb, h, appended]

theorem OnPipeReady_end (b : Build) (hb : b.TARGET_OS_IPHONE = false) (read : Int → ReadResult)
    (c : Subprocess) (h : (read c.fd_).len = 0) :
    c.OnPipeReady b (read c.fd_) = Outcome.returned (closed c) := by
  simp [Subprocess.OnPipeReady, hb, h, closed]

theorem OnPipeReady_error (b : Build) (hb : b.TARGET_OS_IPHONE = false)
    (read : Int → ReadResult) (c : Subprocess) (h : (read c.fd_).len < 0) :
    c.OnPipeReady b (read c.fd_) = Outcome.fatal "read" := by
  have h1 : ¬ 0 < (read c.fd_).len := by omega
  simp [Subprocess.OnPipeReady, hb, h, h1, Fatal]

/-- The second loop of the pselect variant when no `read` fails. -/
theorem pselectLoop_ok (b : Build) (hb : b.TARGET_OS_IPHONE = false) (R : List Nat)
    (read : Int → ReadResult) :
    ∀ (rest kept finished : List Subprocess) (log : List Event),
      (∀ c ∈ rest, inReady R c = true → 0 ≤ (read c.fd_).len) →
      pselectLoop b R read rest kept finished log =
        ⟨log ++ (rest.filter (inReady R)).map Event.OnPipeReady,
          Outcome.returned
            (kept ++ (rest.filter (fun c => !readsEnd R read c)).map (afterDrain R read),
             finished ++ (rest.filter (readsEnd R read)).map closed)⟩ := by
  intro rest
  induction rest with
  | nil => intro kept finished log _; simp [pselectLoop]
  | cons c cs ih =>
    intro kept finished log hread
    have hcs : ∀ c ∈ cs, inReady R c = true → 0 ≤ (read c.fd_).len :=
      fun d hd => hread d (List.mem_cons_of_mem _ hd)
    unfold pselectLoop
    rw [pselect_cond b hb]
    by_cases hr : inReady R c = true
    · have hlen := hread c (List.mem_cons_self _ _) hr
      have hfd : 0 ≤ c.fd_ := by
        simp [inReady] at hr
        exact hr.1
      rcases lt_or_eq_of_le hlen with hpos | hzero
      · have hne : ¬ (read c.fd_).len = 0 := by omega
        have hdone : (appended read c).Done = false := by
          simp [Subprocess.Done, appended]
          omega
        rw [OnPipeReady_data b hb read c hpos]
        simp only [hdone, Bool.false_eq_true, ↓reduceIte]
        rw [ih _ _ _ hcs]
        simp [readsEnd, hr, hne, afterDrain]
      · have hdone : (closed c).Done = true := by simp [Subprocess.Done, closed]
        rw [OnPipeReady_end b hb read c hzero.symm]
        simp only [hdone, Bool.false_eq_true, ↓reduceIte]
        rw [ih _ _ _ hcs]
        simp [readsEnd, hr, hzero.symm]
    · have hr2 : inReady R c = false := by simpa using hr
      simp only [hr2]
      rw [ih _ _ _ hcs]
      simp [readsEnd, hr2, afterDrain]

/-- The second loop of the pselect variant when a `read` fails. -/
theorem pselectLoop_fatal (b : Build) (hb : b.TARGET_OS_IPHONE = false) (R : List Nat)
    (read : Int → ReadResult) :
    ∀ (rest kept finished : List Subprocess) (log : List Event),
      (∃ c ∈ rest, inReady R c = true ∧ (read c.fd_).len < 0) →
      (pselectLoop b R read rest kept finished log).out = Outcome.fatal "read" := by
  intro rest
  induction rest with
  | nil => intro kept finished log h; simp at h
  | cons c cs ih =>
    intro kept finished log h
    unfold pselectLoop
    rw [pselect_cond b hb]
    by_cases hr : inReady R c = true
    · simp only [hr, if_true]
      rcases lt_trichotomy (read c.fd_).len 0 with hneg | hzero | hpos
      · rw [OnPipeReady_error b hb read c hneg]
      · have hcs : ∃ d ∈ cs, inReady R d = true ∧ (read d.fd_).len < 0 := by
          obtain ⟨d, hd, hd1, hd2⟩ := h
          rcases List.mem_cons.mp hd with rfl | hd
          · omega
          · exact ⟨d, hd, hd1, hd2⟩
        rw [OnPipeReady_end b hb read c hzero]
        simp only
        split <;> exact ih _ _ _ hcs
      · have hcs : ∃ d ∈ cs, inReady R d = true ∧ (read d.fd_).len < 0 := by
          obtain ⟨d, hd, hd1, hd2⟩ := h
          rcases List.mem_cons.mp hd with rfl | hd
          · omega
          · exact ⟨d, hd, hd1, hd2⟩
        rw [OnPipeReady_data b hb read c hpos]
        simp only
        split <;> exact ih _ _ _ hcs
    · have hr2 : inReady R c = false := by simpa using hr
      have hcs : ∃ d ∈ cs, inReady R d = true ∧ (read d.fd_).len < 0 := by
        obtain ⟨d, hd, hd1, hd2⟩ := h
        rcases List.mem_cons.mp hd with rfl | hd
        · simp [hr2] at hd1
        · exact ⟨d, hd, hd1, hd2⟩
      simp only [hr2]
      exact ih _ _ _ hcs

/-- C2 (as amended).  Pselect variant in a build without `TARGET_OS_IPHONE`:
the wait is reached (the first loop has built `set` and `nfds`), it reports
the ready set `R`, and `sigpending` reports none of SIGINT, SIGTERM, SIGHUP.
If no `read` on a child of `R` fails, `DoWork` returns false, calls
`OnPipeReady` once on each running child whose descriptor is in `R`, in order,
and on no other; `running_` becomes the previous list without the children
that read end of stream, the others in their order (those drained with their
bytes appended); `finished_` becomes the previous queue followed by the
removed children in their `running_` order.  If such a `read` fails the call
ends in `Fatal`, which is the only other case. -/
theorem DoWork_pselect_drains (b : Build) (s : SubprocessSet) (e : DoWorkEnv)
    (set : List Nat) (nfds : Int) (R : List Nat)
    (p : List Int) (hb : b.TARGET_OS_IPHONE = false)
    (hset : fdSetLoop b s.running_ [] 0 = some (set, nfds))
    (hwait : e.pselect nfds set = WaitResult.returned R)
    (hp : e.sigpending = some p) (h1 : SIGINT ∉ p) (h2 : SIGTERM ∉ p) (h3 : SIGHUP ∉ p) :
    ((∀ c ∈ s.running_, inReady R c = true → 0 ≤ (e.read c.fd_).len) →
      s.DoWork_pselect b e =
        ⟨(s.running_.filter (inReady R)).map Event.OnPipeReady,
          Outcome.returned (false,
            { s with
              interrupted_ := 0
              running_ := (s.running_.filter (fun c => !readsEnd R e.read c)).map
                (afterDrain R e.read)
              finished_ := s.finished_ ++ (s.running_.filter (readsEnd R e.read)).map closed })⟩) ∧
    ((∃ c ∈ s.running_, inReady R c = true ∧ (e.read c.fd_).len < 0) →
      (s.DoWork_pselect b e).out = Outcome.fatal "read") := by
  constructor
  · intro hread
    simp only [SubprocessSet.DoWork_pselect, hb, hset, hwait, hp]
    rw [HandlePendingInterruption_none_pending _ p h1 h2 h3]
    simp only [SubprocessSet.IsInterrupted]
    rw [pselectLoop_ok b hb R e.read _ _ _ _ hread]
    simp
  · intro hfail
    have hf := pselectLoop_fatal b hb R e.read s.running_ [] s.finished_ [] hfail
    simp only [SubprocessSet.DoWork_pselect, hb, hset, hwait, hp]
    rw [HandlePendingInterruption_none_pending _ p h1 h2 h3]
    simp only [SubprocessSet.IsInterrupted]
    simp [hf]

/-- Witness for C2: three running children on descriptors
3, 4, 5; 3 and 5 are ready, 3 reads two bytes and 5 reads end of stream. -/
theorem DoWork_pselect_drains_witness :
    ({ emptySet with
        running_ := [childOn 3 100 false, childOn 4 101 false, childOn 5 102 true] }).DoWork_pselect
      pselectBuild
      (envOf (WaitResult.returned [3, 5]) (WaitResult.returned (fun _ => 0)) (some [])
        (fun fd => if fd = 3 then ⟨2, [104, 105]⟩ else ⟨0, []⟩)) =
      ⟨[Event.OnPipeReady (childOn 3 100 false), Event.OnPipeReady (childOn 5 102 true)],
        Outcome.returned (false,
          { emptySet with
            running_ := [{ childOn 3 100 false with buf_ := [104, 105] }, childOn 4 101 false]
            finished_ := [childOn (-1) 102 true] })⟩ :=
  (DoWork_pselect_drains pselectBuild
    { emptySet with
      running_ := [childOn 3 100 false, childOn 4 101 false, childOn 5 102 true] }
    (envOf (WaitResult.returned [3, 5]) (WaitResult.returned (fun _ => 0)) (some [])
      (fun fd => if fd = 3 then ⟨2, [104, 105]⟩ else ⟨0, []⟩))
    [3, 4, 5] 6 [3, 5] [] rfl rfl rfl rfl (by decide) (by decide) (by decide)).1 (by decide)

/-- C2 fails as stated: the wait reports descriptor 3 ready, no signal is
pending, and the `read` on it returns -1; `DoWork` ends in `Fatal` after the
one `OnPipeReady` and returns nothing, the ready child on 5 is not drained. -/
theorem DoWork_read_error_is_fatal :
    ({ emptySet with running_ := [childOn 3 100 false, childOn 5 102 false] }).DoWork_pselect
      pselectBuild
      (envOf (WaitResult.returned [3, 5]) (WaitResult.returned (fun _ => 1)) (some [])
        (fun _ => ⟨-1, []⟩)) =
      ⟨[Event.OnPipeReady (childOn 3 100 false)], Outcome.fatal "read"⟩ := by
  decide

/-! ## `Clear` -/

theorem killLoop_eq (interrupted : Int) (cs : List Subprocess) :
    killLoop interrupted cs =
      (cs.filter (fun c => !c.use_console_)).map (groupKill interrupted) := by
  induction cs with
  | nil => rfl
  | cons c cs ih =>
    unfold killLoop
    cases hc : c.use_console_ <;> simp [ih, groupKill, hc]

theorem destroy_ok (b : Build) (m : WaitMacros) (c : Subprocess) (w : WaitpidResult)
    (hw : b.FATAL_THROWS = true ∨ (c.pid_ ≠ -1 → 0 ≤ w.ret)) :
    c.destroy b m w = ⟨destroyEvents c, Outcome.returned ()⟩ := by
  unfold Subprocess.destroy destroyEvents
  by_cases hpid : c.pid_ = -1
  · simp [hpid]
  · by_cases h2 : w.ret < 0
    · have ht : b.FATAL_THROWS = true := by
        rcases hw with h | h
        · exact h
        · exact absurd (h hpid) (not_le.mpr h2)
      simp [hpid, Subprocess.Finish, h2, Fatal, ht]
    · simp [hpid, Subprocess.Finish, h2]

theorem deleteLoop_ok (b : Build) (m : WaitMacros) (waitpid : Int → WaitpidResult) :
    ∀ (cs : List Subprocess) (log : List Event),
      (b.FATAL_THROWS = true ∨ ∀ c ∈ cs, c.pid_ ≠ -1 → 0 ≤ (waitpid c.pid_).ret) →
      deleteLoop b m waitpid cs log = ⟨log ++ cs.flatMap destroyEvents, Outcome.returned ()⟩ := by
  intro cs
  induction cs with
  | nil => intro log _; simp [deleteLoop]
  | cons c cs ih =>
    intro log h
    unfold deleteLoop
    rw [destroy_ok b m c _ (h.imp id (fun h => h c (List.mem_cons_self _ _)))]
    simp only
    rw [ih _ (h.imp id (fun h d hd => h d (List.mem_cons_of_mem _ hd)))]
    simp

theorem destroy_log_no_kill (b : Build) (m : WaitMacros) (c : Subprocess) (w : WaitpidResult) :
    ∀ ev ∈ (c.destroy b m w).log, ∀ pid sig, ev ≠ Event.kill pid sig := by
  intro ev hev pid sig hk
  subst hk
  unfold Subprocess.destroy at hev
  by_cases hfd : c.fd_ ≥ 0 <;> by_cases hpid : c.pid_ = -1 <;>
    cases hF : c.Finish b m w <;> cases ht : b.FATAL_THROWS <;>
    simp [hfd, hpid, hF, ht] at hev

theorem deleteLoop_log_prefix (b : Build) (m : WaitMacros) (waitpid : Int → WaitpidResult) :
    ∀ (cs : List Subprocess) (log : List Event),
      ∃ rest, (deleteLoop b m waitpid cs log).log = log ++ rest ∧
        ∀ ev ∈ rest, ∀ pid sig, ev ≠ Event.kill pid sig := by
  intro cs
  induction cs with
  | nil => intro log; exact ⟨[], by simp [deleteLoop]⟩
  | cons c cs ih =>
    intro log
    have hd := destroy_log_no_kill b m c (waitpid c.pid_)
    unfold deleteLoop
    simp only
    split
    · obtain ⟨rest, h1, h2⟩ := ih (log ++ (c.destroy b m (waitpid c.pid_)).log)
      refine ⟨(c.destroy b m (waitpid c.pid_)).log ++ rest, by simp [h1], ?_⟩
      intro ev hev
      rcases List.mem_append.mp hev with h | h
      · exact hd ev h
      · exact h2 ev h
    · exact ⟨_, rfl, hd⟩
    · exact ⟨_, rfl, hd⟩
    · exact ⟨_, rfl, hd⟩

theorem Clear_log (b : Build) (m : WaitMacros) (s : SubprocessSet)
    (waitpid : Int → WaitpidResult) :
    (s.Clear b m waitpid).log =
      (deleteLoop b m waitpid s.running_ (killLoop s.interrupted_ s.running_)).log := by
  unfold SubprocessSet.Clear
  simp only
  split <;> rfl

/-- C7 (as amended).  In every state `Clear` first issues
`kill(-pid_, interrupted_)` once for each child of `running_` that is not in
console mode, in `running_` order, and no other `kill`.  It then destroys
every running child (`close` of an open descriptor, reap of an unreaped child)
and, unless one of those reaps fails with a `Fatal` that ends the process,
returns with `running_` empty and `finished_` unchanged.  A `Clear` right
after that makes no call and changes nothing. -/
theorem Clear_kills_then_destroys (b : Build) (m : WaitMacros) (s : SubprocessSet)
    (waitpid : Int → WaitpidResult) :
    (∃ rest, (s.Clear b m waitpid).log =
        (s.running_.filter (fun c => !c.use_console_)).map (groupKill s.interrupted_) ++ rest ∧
      ∀ ev ∈ rest, ∀ pid sig, ev ≠ Event.kill pid sig) ∧
    ((b.FATAL_THROWS = true ∨ ∀ c ∈ s.running_, c.pid_ ≠ -1 → 0 ≤ (waitpid c.pid_).ret) →
      s.Clear b m waitpid =
        ⟨(s.running_.filter (fun c => !c.use_console_)).map (groupKill s.interrupted_) ++
            s.running_.flatMap destroyEvents,
          Outcome.returned { s with running_ := [] }⟩) ∧
    (∀ waitpid2 : Int → WaitpidResult,
      ({ s with running_ := [] } : SubprocessSet).Clear b m waitpid2 =
        ⟨[], Outcome.returned { s with running_ := [] }⟩) := by
  refine ⟨?_, ?_, ?_⟩
  · rw [Clear_log, ← killLoop_eq]
    exact deleteLoop_log_prefix b m waitpid _ _
  · intro h
    unfold SubprocessSet.Clear
    simp only
    rw [deleteLoop_ok b m waitpid _ _ h, killLoop_eq]
  · intro waitpid2
    simp [SubprocessSet.Clear, deleteLoop, killLoop]

/-- Witness for C7: a console child between two others;
the signal recorded is SIGINT and every reap succeeds. -/
theorem Clear_kills_then_destroys_witness :
    ({ emptySet with
        running_ := [childOn 3 100 false, childOn 4 101 true, childOn 5 102 false]
        finished_ := [childOn (-1) 99 false]
        interrupted_ := SIGINT }).Clear pselectBuild posixWait (fun pid => ⟨pid, 0⟩) =
      ⟨[Event.kill (-100) SIGINT, Event.kill (-102) SIGINT,
        Event.close 3, Event.waitpid 100, Event.close 4, Event.waitpid 101,
        Event.close 5, Event.waitpid 102],
        Outcome.returned
          { emptySet with finished_ := [childOn (-1) 99 false], interrupted_ := SIGINT }⟩ :=
  (Clear_kills_then_destroys pselectBuild posixWait
    { emptySet with
      running_ := [childOn 3 100 false, childOn 4 101 true, childOn 5 102 false]
      finished_ := [childOn (-1) 99 false]
      interrupted_ := SIGINT } (fun pid => ⟨pid, 0⟩)).2.1 (Or.inr (by decide))

/-- C7 fails as stated where `Fatal` ends the process: the reap of the first
running child fails, `Clear` ends in `Fatal` after the kills, the second child
is not destroyed and `running_` is not emptied. -/
theorem Clear_failed_reap_is_fatal :
    ({ emptySet with
        running_ := [childOn 3 100 false, childOn 5 102 false]
        interrupted_ := SIGINT }).Clear pselectBuild posixWait (fun _ => ⟨-1, 0⟩) =
      ⟨[Event.kill (-100) SIGINT, Event.kill (-102) SIGINT, Event.close 3, Event.waitpid 100],
        Outcome.fatal "waitpid"⟩ := by
  decide

/-! ## `Start` -/

theorem spawnSetup_cases (use_console : Bool) (p0 p1 : Nat) (e : StartEnv) :
    (∃ what, Subprocess.spawnSetup use_console p0 p1 e = Outcome.fatal what) ∨
    Subprocess.spawnSetup use_console p0 p1 e =
      Outcome.returned
        ({ SETSIGMASK := true, SETPGROUP := !use_console, USEVFORK := false },
         FileAction.addclose (p0 : Int) ::
          (if use_console then []
           else [FileAction.addopen 0 "/dev/null" "O_RDONLY" 0,
                 FileAction.adddup2 (p1 : Int) 1,
                 FileAction.adddup2 (p1 : Int) 2,
                 FileAction.addclose (p1 : Int)])) := by
  by_cases h1 : e.err SpawnCall.file_actions_init = 0
  swap
  · exact Or.inl ⟨_, by simp [Subprocess.spawnSetup, h1, Fatal]; rfl⟩
  by_cases h2 : e.err SpawnCall.addclose_read = 0
  swap
  · exact Or.inl ⟨_, by simp [Subprocess.spawnSetup, h1, h2, Fatal]; rfl⟩
  by_cases h3 : e.err SpawnCall.attr_init = 0
  swap
  · exact Or.inl ⟨_, by simp [Subprocess.spawnSetup, h1, h2, h3, Fatal]; rfl⟩
  by_cases h4 : e.err SpawnCall.setsigmask = 0
  swap
  · exact Or.inl ⟨_, by simp [Subprocess.spawnSetup, h1, h2, h3, h4, Fatal]; rfl⟩
  cases use_console
  swap
  · exact Or.inr (by simp [Subprocess.spawnSetup, h1, h2, h3, h4])
  by_cases h5 : e.err SpawnCall.addopen = 0
  swap
  · exact Or.inl ⟨_, by simp [Subprocess.spawnSetup, h1, h2, h3, h4, h5, Fatal]; rfl⟩
  by_cases h6 : e.err SpawnCall.adddup2_stdout = 0
  swap
  · exact Or.inl ⟨_, by simp [Subprocess.spawnSetup, h1, h2, h3, h4, h5, h6, Fatal]; rfl⟩
  by_cases h7 : e.err SpawnCall.adddup2_stderr = 0
  swap
  · exact Or.inl ⟨_, by simp [Subprocess.spawnSetup, h1, h2, h3, h4, h5, h6, h7, Fatal]; rfl⟩
  by_cases h8 : e.err SpawnCall.addclose_write = 0
  swap
  · exact Or.inl ⟨_, by simp [Subprocess.spawnSetup, h1, h2, h3, h4, h5, h6, h7, h8, Fatal]; rfl⟩
  exact Or.inr (by simp [Subprocess.spawnSetup, h1, h2, h3, h4, h5, h6, h7, h8])

theorem spawnSetup_ok (use_console : Bool) (p0 p1 : Nat) (e : StartEnv)
    (h : ∀ k, e.err k = 0) :
    Subprocess.spawnSetup use_console p0 p1 e =
      Outcome.returned
        ({ SETSIGMASK := true, SETPGROUP := !use_console, USEVFORK := false },
         FileAction.addclose (p0 : Int) ::
          (if use_console then []
           else [FileAction.addopen 0 "/dev/null" "O_RDONLY" 0,
                 FileAction.adddup2 (p1 : Int) 1,
                 FileAction.adddup2 (p1 : Int) 2,
                 FileAction.addclose (p1 : Int)])) := by
  cases use_console <;> simp [Subprocess.spawnSetup, h]

theorem spawn_log (b : Build) (self : Subprocess) (set : SubprocessSet) (command : String)
    (p1 : Nat) (flags1 : SpawnFlags) (action : List FileAction) (e : StartEnv) (rq : SpawnRequest)
    (h : Event.posix_spawn rq ∈ (self.spawn b set command p1 flags1 action e).log) :
    rq = { path := "/bin/sh", file_actions := action,
           attr := { flags := if b.POSIX_SPAWN_USEVFORK then { flags1 with USEVFORK := true }
                              else flags1,
                     sigmask := some set.old_mask_ },
           argv := ["/bin/sh", "-c", command] } := by
  by_cases h1 : e.err SpawnCall.setflags = 0
  swap
  · simp [Subprocess.spawn, h1] at h
  by_cases h2 : e.err SpawnCall.spawn = 0
  swap
  · simpa [Subprocess.spawn, h1, h2] using h
  by_cases h3 : e.err SpawnCall.attr_destroy = 0
  swap
  · simpa [Subprocess.spawn, h1, h2, h3] using h
  by_cases h4 : e.err SpawnCall.file_actions_destroy = 0
  swap
  · simpa [Subprocess.spawn, h1, h2, h3, h4] using h
  simpa [Subprocess.spawn, h1, h2, h3, h4] using h

theorem spawn_ok (b : Build) (self : Subprocess) (set : SubprocessSet) (command : String)
    (p1 : Nat) (flags1 : SpawnFlags) (action : List FileAction) (e : StartEnv)
    (h : ∀ k, e.err k = 0) :
    self.spawn b set command p1 flags1 action e =
      ⟨[Event.posix_spawn
          { path := "/bin/sh", file_actions := action,
            attr := { flags := if b.POSIX_SPAWN_USEVFORK then { flags1 with USEVFORK := true }
                               else flags1,
                      sigmask := some set.old_mask_ },
            argv := ["/bin/sh", "-c", command] },
        Event.close (p1 : Int)],
       Outcome.returned (true, { self with pid_ := e.pid })⟩ := by
  simp [Subprocess.spawn, h]

theorem Start_eq (b : Build) (self : Subprocess) (set : SubprocessSet) (command : String)
    (e : StartEnv) (p0 p1 : Nat) (hpipe : e.pipe = some (p0, p1)) :
    self.Start b set command e =
      if b.USE_PPOLL = false ∧ b.FD_SETSIZE ≤ p0 then ⟨[], Fatal "pipe"⟩
      else if b.TARGET_OS_IPHONE = false then
        match Subprocess.spawnSetup self.use_console_ p0 p1 e with
        | Outcome.fatal what => ⟨[], Outcome.fatal what⟩
        | Outcome.abort => ⟨[], Outcome.abort⟩
        | Outcome.undefined => ⟨[], Outcome.undefined⟩
        | Outcome.returned (flags1, action) =>
          ({ self with fd_ := (p0 : Int) } : Subprocess).spawn b set command p1 flags1 action e
      else ({ self with fd_ := (p0 : Int) } : Subprocess).nosystemStart e := by
  simp [Subprocess.Start, hpipe]

/-- C8.  Whatever the command, the console flag and the results of the calls:
a request that `Start` hands to `posix_spawn` asks for a new process group
(`POSIX_SPAWN_SETPGROUP`) exactly when `use_console_` is false, always asks for
the signal mask to be set (`POSIX_SPAWN_SETSIGMASK`) to `old_mask_` of the set,
and lists as file actions the close of the pipe read end followed, exactly
when `use_console_` is false, by the open of `/dev/null` read-only on 0, the
dup2 of the write end onto 1 and onto 2 and the close of the write end.  In a
build without `TARGET_OS_IPHONE`, when the pipe is accepted and no call of the
`posix_spawn` family fails, `Start` does hand over such a request, once, and
returns true with `fd_` the read end and `pid_` the new process. -/
theorem Start_spawn_request (b : Build) (self : Subprocess) (set : SubprocessSet)
    (command : String) (e : StartEnv) :
    (∀ rq, Event.posix_spawn rq ∈ (self.Start b set command e).log →
      ∃ p0 p1 : Nat, e.pipe = some (p0, p1) ∧
        rq.attr.flags.SETPGROUP = !self.use_console_ ∧
        rq.attr.flags.SETSIGMASK = true ∧
        rq.attr.sigmask = some set.old_mask_ ∧
        rq.file_actions = FileAction.addclose (p0 : Int) ::
          (if self.use_console_ then []
           else [FileAction.addopen 0 "/dev/null" "O_RDONLY" 0,
                 FileAction.adddup2 (p1 : Int) 1,
                 FileAction.adddup2 (p1 : Int) 2,
                 FileAction.addclose (p1 : Int)]) ∧
        rq.argv = ["/bin/sh", "-c", command]) ∧
    (∀ p0 p1 : Nat, e.pipe = some (p0, p1) → b.TARGET_OS_IPHONE = false →
      (b.USE_PPOLL = true ∨ p0 < b.FD_SETSIZE) → (∀ k, e.err k = 0) →
      self.Start b set command e =
        ⟨[Event.posix_spawn (startRequest b self.use_console_ set.old_mask_ command p0 p1),
          Event.close (p1 : Int)],
         Outcome.returned (true, { self with fd_ := (p0 : Int), pid_ := e.pid })⟩) := by
  constructor
  · intro rq h
    cases hpipe : e.pipe with
    | none => simp [Subprocess.Start, hpipe] at h
    | some pr =>
      obtain ⟨p0, p1⟩ := pr
      refine ⟨p0, p1, rfl, ?_⟩
      rw [Start_eq b self set command e p0 p1 hpipe] at h
      by_cases hfd : b.USE_PPOLL = false ∧ b.FD_SETSIZE ≤ p0
      · rw [if_pos hfd] at h
        simp at h
      rw [if_neg hfd] at h
      by_cases hios : b.TARGET_OS_IPHONE = false
      swap
      · rw [if_neg hios] at h
        simp [Subprocess.nosystemStart] at h
      rw [if_pos hios] at h
      rcases spawnSetup_cases self.use_console_ p0 p1 e with ⟨what, hs⟩ | hs
      · rw [hs] at h
        simp at h
      · rw [hs] at h
        have hrq := spawn_log _ _ _ _ _ _ _ _ _ h
        subst hrq
        cases b.POSIX_SPAWN_USEVFORK <;> simp
  · intro p0 p1 hpipe hios hfd herr
    have hfd2 : ¬ (b.USE_PPOLL = false ∧ b.FD_SETSIZE ≤ p0) := by
      rcases hfd with h | h
      · simp [h]
      · omega
    rw [Start_eq b self set command e p0 p1 hpipe, if_neg hfd2, if_pos hios,
      spawnSetup_ok _ _ _ _ herr]
    simp only
    rw [spawn_ok _ _ _ _ _ _ _ _ herr]
    cases hv : b.POSIX_SPAWN_USEVFORK <;> simp [startRequest, hv]

/-- Witness for C8: a non-console child on the pipe (5, 6)
from a set that had SIGHUP blocked before its construction. -/
theorem Start_spawn_request_witness :
    (Subprocess.new false).Start ppollBuild { emptySet with old_mask_ := [SIGHUP] } "echo hi"
      { pipe := some (5, 6), err := fun _ => 0, pid := 100, nosystem_read := ⟨0, []⟩ } =
      ⟨[Event.posix_spawn
          { path := "/bin/sh"
            file_actions :=
              [FileAction.addclose 5, FileAction.addopen 0 "/dev/null" "O_RDONLY" 0,
               FileAction.adddup2 6 1, FileAction.adddup2 6 2, FileAction.addclose 6]
            attr := { flags := { SETSIGMASK := true, SETPGROUP := true, USEVFORK := true }
                      sigmask := some [SIGHUP] }
            argv := ["/bin/sh", "-c", "echo hi"] },
        Event.close 6],
       Outcome.returned (true, childOn 5 100 false)⟩ :=
  (Start_spawn_request ppollBuild (Subprocess.new false) { emptySet with old_mask_ := [SIGHUP] }
    "echo hi" { pipe := some (5, 6), err := fun _ => 0, pid := 100, nosystem_read := ⟨0, []⟩ }).2
    5 6 rfl rfl (Or.inl rfl) (fun _ => rfl)

/-! ## The invariant -/

theorem OnPipeReady_fd (b : Build) (c c1 : Subprocess) (r : ReadResult)
    (h : c.OnPipeReady b r = Outcome.returned c1) : c1.fd_ = c.fd_ ∨ c1.fd_ = -1 := by
  unfold Subprocess.OnPipeReady at h
  split at h
  · simp at h; subst h; exact Or.inl rfl
  · split at h
    · simp at h; subst h; exact Or.inl rfl
    · split at h
      · simp [Fatal] at h
      · simp at h; subst h; exact Or.inr rfl

/-- What the second loop of the pselect variant keeps has the descriptor it
had; what it adds to `finished_` has the descriptor -1. -/
theorem pselectLoop_inv (b : Build) (set : List Nat) (read : Int → ReadResult)
    (P : Int → Prop) :
    ∀ (rest kept finished : List Subprocess) (log : List Event) (k f : List Subprocess),
      (∀ c ∈ rest, P c.fd_) → (∀ c ∈ kept, P c.fd_) →
      (pselectLoop b set read rest kept finished log).out = Outcome.returned (k, f) →
      (∀ c ∈ k, P c.fd_) ∧ (∀ c ∈ f, c ∈ finished ∨ c.fd_ = -1) := by
  intro rest
  induction rest with
  | nil =>
    intro kept finished log k f _ hk h
    simp [pselectLoop] at h
    obtain ⟨rfl, rfl⟩ := h
    exact ⟨hk, fun c hc => Or.inl hc⟩
  | cons c cs ih =>
    intro kept finished log k f hrest hk h
    have hc : P c.fd_ := hrest c (List.mem_cons_self _ _)
    have hcs : ∀ d ∈ cs, P d.fd_ := fun d hd => hrest d (List.mem_cons_of_mem _ hd)
    unfold pselectLoop at h
    split at h
    · cases hO : c.OnPipeReady b (read c.fd_) with
      | returned c1 =>
        rw [hO] at h
        simp only at h
        have hfd := OnPipeReady_fd b c c1 _ hO
        split at h
        · rename_i hdone
          have hc1 : c1.fd_ = -1 := by simpa [Subprocess.Done] using hdone
          obtain ⟨h1, h2⟩ := ih _ _ _ _ _ hcs hk h
          refine ⟨h1, fun d hd => ?_⟩
          rcases h2 d hd with h3 | h3
          · rcases List.mem_append.mp h3 with h4 | h4
            · exact Or.inl h4
            · simp at h4; subst h4; exact Or.inr hc1
          · exact Or.inr h3
        · rename_i hdone
          have hc1 : c1.fd_ ≠ -1 := by simpa [Subprocess.Done] using hdone
          have hc2 : P c1.fd_ := by
            rcases hfd with h3 | h3
            · rw [h3]; exact hc
            · exact absurd h3 hc1
          have hk2 : ∀ d ∈ kept ++ [c1], P d.fd_ := by
            intro d hd
            rcases List.mem_append.mp hd with h4 | h4
            · exact hk d h4
            · simp at h4; subst h4; exact hc2
          exact ih _ _ _ _ _ hcs hk2 h
      | fatal w => rw [hO] at h; simp at h
      | abort => rw [hO] at h; simp at h
      | undefined => rw [hO] at h; simp at h
    · have hk2 : ∀ d ∈ kept ++ [c], P d.fd_ := by
        intro d hd
        rcases List.mem_append.mp hd with h4 | h4
        · exact hk d h4
        · simp at h4; subst h4; exact hc
      exact ih _ _ _ _ _ hcs hk2 h

/-- The same for the second loop of the ppoll variant, whatever the fuel. -/
theorem ppollLoop_inv (b : Build) (fds : List Int) (revents : Nat → Int)
    (read : Int → ReadResult) (P : Int → Prop) :
    ∀ (fuel cur : Nat) (rest kept finished : List Subprocess) (log : List Event)
      (r : Run (List Subprocess × List Subprocess)) (k f : List Subprocess),
      (∀ c ∈ rest, P c.fd_) → (∀ c ∈ kept, P c.fd_) →
      ppollLoop b fds revents read fuel cur rest kept finished log = some r →
      r.out = Outcome.returned (k, f) →
      (∀ c ∈ k, P c.fd_) ∧ (∀ c ∈ f, c ∈ finished ∨ c.fd_ = -1) := by
  intro fuel
  induction fuel with
  | zero => intro cur rest kept finished log r k f _ _ h; simp [ppollLoop] at h
  | succ n ih =>
    intro cur rest kept finished log r k f hrest hk h hr
    cases rest with
    | nil =>
      simp [ppollLoop] at h
      subst h
      simp at hr
      obtain ⟨rfl, rfl⟩ := hr
      exact ⟨hk, fun c hc => Or.inl hc⟩
    | cons c cs =>
      have hc : P c.fd_ := hrest c (List.mem_cons_self _ _)
      have hcs : ∀ d ∈ cs, P d.fd_ := fun d hd => hrest d (List.mem_cons_of_mem _ hd)
      have hk2 : ∀ d ∈ kept ++ [c], P d.fd_ := by
        intro d hd
        rcases List.mem_append.mp hd with h4 | h4
        · exact hk d h4
        · simp at h4; subst h4; exact hc
      unfold ppollLoop at h
      split at h
      · exact ih _ _ _ _ _ _ _ _ hrest hk h hr
      split at h
      · simp at h; subst h; simp at hr
      · split at h
        · cases hO : c.OnPipeReady b (read c.fd_) with
          | returned c1 =>
            rw [hO] at h
            simp only at h
            have hfd := OnPipeReady_fd b c c1 _ hO
            split at h
            · rename_i hdone
              have hc1 : c1.fd_ = -1 := by simpa [Subprocess.Done] using hdone
              obtain ⟨h1, h2⟩ := ih _ _ _ _ _ _ _ _ hcs hk h hr
              refine ⟨h1, fun d hd => ?_⟩
              rcases h2 d hd with h3 | h3
              · rcases List.mem_append.mp h3 with h4 | h4
                · exact Or.inl h4
                · simp at h4; subst h4; exact Or.inr hc1
              · exact Or.inr h3
            · rename_i hdone
              have hc1 : c1.fd_ ≠ -1 := by simpa [Subprocess.Done] using hdone
              have hc2 : P c1.fd_ := by
                rcases hfd with h3 | h3
                · rw [h3]; exact hc
                · exact absurd h3 hc1
              have hk3 : ∀ d ∈ kept ++ [c1], P d.fd_ := by
                intro d hd
                rcases List.mem_append.mp hd with h4 | h4
                · exact hk d h4
                · simp at h4; subst h4; exact hc2
              exact ih _ _ _ _ _ _ _ _ hcs hk3 h hr
          | fatal w => rw [hO] at h; simp at h; subst h; simp at hr
          | abort => rw [hO] at h; simp at h; subst h; simp at hr
          | undefined => rw [hO] at h; simp at h; subst h; simp at hr
        · exact ih _ _ _ _ _ _ _ _ hcs hk2 h hr

theorem HandlePendingInterruption_lists (s : SubprocessSet) (p : Option (List Int)) :
    (s.HandlePendingInterruption p).2.running_ = s.running_ ∧
    (s.HandlePendingInterruption p).2.finished_ = s.finished_ := by
  unfold SubprocessSet.HandlePendingInterruption
  cases p with
  | none => exact ⟨rfl, rfl⟩
  | some p => simp only; split_ifs <;> exact ⟨rfl, rfl⟩

theorem BuildInv_of_loop (b : Build) (s t : SubprocessSet) (k f : List Subprocess)
    (hs : s.BuildInv b) (hk : ∀ c ∈ k, okFd b c.fd_)
    (hf : ∀ c ∈ f, c ∈ s.finished_ ∨ c.fd_ = -1)
    (ht1 : t.running_ = k) (ht2 : t.finished_ = f) : t.BuildInv b := by
  refine ⟨fun c hc => ?_, fun hb c hc => ?_⟩
  · rw [ht1] at hc; exact hk c hc
  · rw [ht2] at hc
    rcases hf c hc with h | h
    · exact hs.2 hb c h
    · exact h

theorem DoWork_pselect_inv (b : Build) (s t : SubprocessSet) (e : DoWorkEnv)
    (log : List Event) (r : Bool)
    (h : s.DoWork_pselect b e = ⟨log, Outcome.returned (r, t)⟩) (hs : s.BuildInv b) :
    t.BuildInv b := by
  by_cases hb : b.TARGET_OS_IPHONE = true
  · cases hout : (pselectLoop b [] e.read s.running_ [] s.finished_ []).out with
    | returned kf =>
      obtain ⟨kept, finished⟩ := kf
      have hl := pselectLoop_inv b [] e.read (okFd b) _ _ _ _ _ _ hs.1 (by simp) hout
      simp [SubprocessSet.DoWork_pselect, hb, hout] at h
      obtain ⟨_, _, rfl⟩ := h
      exact BuildInv_of_loop b s _ kept finished hs hl.1 hl.2 rfl rfl
    | fatal w => simp [SubprocessSet.DoWork_pselect, hb, hout] at h
    | abort => simp [SubprocessSet.DoWork_pselect, hb, hout] at h
    | undefined => simp [SubprocessSet.DoWork_pselect, hb, hout] at h
  · have hb2 : b.TARGET_OS_IPHONE = false := by simpa using hb
    cases hset : fdSetLoop b s.running_ [] 0 with
    | none => simp [SubprocessSet.DoWork_pselect, hb2, hset] at h
    | some sn =>
      obtain ⟨set, nfds⟩ := sn
      cases hw : e.pselect nfds set with
      | failed errno caught =>
        by_cases herr : errno = EINTR
        · simp [SubprocessSet.DoWork_pselect, hb2, hset, hw, herr,
            SubprocessSet.SetInterruptedFlag] at h
          obtain ⟨_, _, rfl⟩ := h
          exact hs
        · simp [SubprocessSet.DoWork_pselect, hb2, hset, hw, herr,
            SubprocessSet.SetInterruptedFlag] at h
          obtain ⟨_, _, rfl⟩ := h
          exact hs
      | returned ready =>
        have hl := HandlePendingInterruption_lists { s with interrupted_ := 0 } e.sigpending
        cases hH : ({ s with interrupted_ := 0 } : SubprocessSet).HandlePendingInterruption
            e.sigpending with
        | mk plog s1 =>
          rw [hH] at hl
          simp only at hl
          by_cases hi : s1.IsInterrupted = true
          · simp [SubprocessSet.DoWork_pselect, hb2, hset, hw, hH, hi] at h
            obtain ⟨_, _, rfl⟩ := h
            exact ⟨by rw [hl.1]; exact hs.1, by rw [hl.2]; exact hs.2⟩
          · cases hout : (pselectLoop b ready e.read s1.running_ [] s1.finished_ plog).out with
            | returned kf =>
              obtain ⟨kept, finished⟩ := kf
              have hl2 := pselectLoop_inv b _ e.read (okFd b) _ _ _ _ _ _
                (by rw [hl.1]; exact hs.1) (by simp) hout
              simp [SubprocessSet.DoWork_pselect, hb2, hset, hw, hH, hi, hout] at h
              obtain ⟨_, _, rfl⟩ := h
              refine BuildInv_of_loop b s _ kept finished hs hl2.1 ?_ rfl rfl
              intro c hc
              rcases hl2.2 c hc with h3 | h3
              · exact Or.inl (by rw [← hl.2]; exact h3)
              · exact Or.inr h3
            | fatal w => simp [SubprocessSet.DoWork_pselect, hb2, hset, hw, hH, hi, hout] at h
            | abort => simp [SubprocessSet.DoWork_pselect, hb2, hset, hw, hH, hi, hout] at h
            | undefined =>
              simp [SubprocessSet.DoWork_pselect, hb2, hset, hw, hH, hi, hout] at h

theorem DoWork_ppoll_inv (b : Build) (s t : SubprocessSet) (e : DoWorkEnv) (fuel : Nat)
    (log : List Event) (r : Bool)
    (h : s.DoWork_ppoll b e fuel = some ⟨log, Outcome.returned (r, t)⟩) (hs : s.BuildInv b) :
    t.BuildInv b := by
  cases hw : e.ppoll (pollfdLoop s.running_ []) with
  | failed errno caught =>
    by_cases herr : errno = EINTR
    · simp [SubprocessSet.DoWork_ppoll, hw, herr, SubprocessSet.SetInterruptedFlag] at h
      obtain ⟨_, _, rfl⟩ := h
      exact hs
    · simp [SubprocessSet.DoWork_ppoll, hw, herr, SubprocessSet.SetInterruptedFlag] at h
      obtain ⟨_, _, rfl⟩ := h
      exact hs
  | returned revents =>
    have hl := HandlePendingInterruption_lists { s with interrupted_ := 0 } e.sigpending
    cases hH : ({ s with interrupted_ := 0 } : SubprocessSet).HandlePendingInterruption
        e.sigpending with
    | mk plog s1 =>
      rw [hH] at hl
      simp only at hl
      by_cases hi : s1.IsInterrupted = true
      · simp [SubprocessSet.DoWork_ppoll, hw, hH, hi] at h
        obtain ⟨_, _, rfl⟩ := h
        exact ⟨by rw [hl.1]; exact hs.1, by rw [hl.2]; exact hs.2⟩
      · cases hloop : ppollLoop b (pollfdLoop s.running_ []) revents e.read fuel 0
            s1.running_ [] s1.finished_ plog with
        | none => simp [SubprocessSet.DoWork_ppoll, hw, hH, hi, hloop] at h
        | some r0 =>
          cases hout : r0.out with
          | returned kf =>
            obtain ⟨kept, finished⟩ := kf
            have hl2 := ppollLoop_inv b _ _ e.read (okFd b) _ _ _ _ _ _ _ _ _
              (by rw [hl.1]; exact hs.1) (by simp) hloop hout
            simp [SubprocessSet.DoWork_ppoll, hw, hH, hi, hloop, hout] at h
            obtain ⟨_, _, rfl⟩ := h
            refine BuildInv_of_loop b s _ kept finished hs hl2.1 ?_ rfl rfl
            intro c hc
            rcases hl2.2 c hc with h3 | h3
            · exact Or.inl (by rw [← hl.2]; exact h3)
            · exact Or.inr h3
          | fatal w => simp [SubprocessSet.DoWork_ppoll, hw, hH, hi, hloop, hout] at h
          | abort => simp [SubprocessSet.DoWork_ppoll, hw, hH, hi, hloop, hout] at h
          | undefined => simp [SubprocessSet.DoWork_ppoll, hw, hH, hi, hloop, hout] at h

theorem spawn_fd (b : Build) (self c1 : Subprocess) (set : SubprocessSet) (command : String)
    (p1 : Nat) (flags1 : SpawnFlags) (action : List FileAction) (e : StartEnv) (ok : Bool)
    (h : (self.spawn b set command p1 flags1 action e).out = Outcome.returned (ok, c1)) :
    c1.fd_ = self.fd_ := by
  unfold Subprocess.spawn at h
  simp only at h
  split at h
  · simp [Fatal] at h
  · split at h
    · simp [Fatal] at h
    · split at h
      · simp [Fatal] at h
      · split at h
        · simp [Fatal] at h
        · simp at h
          rw [← h.2]

/-- A child that `Start` returns has the read end of its pipe as `fd_`, a
descriptor `>= 0` that passed the `FD_SETSIZE` test of the pselect variant. -/
theorem Start_fd (b : Build) (self c1 : Subprocess) (set : SubprocessSet) (command : String)
    (e : StartEnv) (ok : Bool)
    (h : (self.Start b set command e).out = Outcome.returned (ok, c1)) : okFd b c1.fd_ := by
  cases hpipe : e.pipe with
  | none => simp [Subprocess.Start, hpipe, Fatal] at h
  | some pr =>
    obtain ⟨p0, p1⟩ := pr
    rw [Start_eq b self set command e p0 p1 hpipe] at h
    by_cases hfd : b.USE_PPOLL = false ∧ b.FD_SETSIZE ≤ p0
    · rw [if_pos hfd] at h
      simp [Fatal] at h
    rw [if_neg hfd] at h
    have hok : okFd b (p0 : Int) := by
      refine ⟨by simp, fun hp => ?_⟩
      have : ¬ b.FD_SETSIZE ≤ p0 := fun h2 => hfd ⟨hp, h2⟩
      exact_mod_cast not_le.mp this
    by_cases hios : b.TARGET_OS_IPHONE = false
    · rw [if_pos hios] at h
      cases hs : Subprocess.spawnSetup self.use_console_ p0 p1 e with
      | returned fa =>
        obtain ⟨flags1, action⟩ := fa
        rw [hs] at h
        simp only at h
        rw [spawn_fd _ _ _ _ _ _ _ _ _ _ h]
        exact hok
      | fatal w => rw [hs] at h; simp at h
      | abort => rw [hs] at h; simp at h
      | undefined => rw [hs] at h; simp at h
    · rw [if_neg hios] at h
      simp [Subprocess.nosystemStart] at h
      rw [← h.2]
      exact hok

theorem Add_inv (b : Build) (s t : SubprocessSet) (command : String) (use_console : Bool)
    (e : StartEnv) (log : List Event) (p : Option Subprocess)
    (h : s.Add b command use_console e = ⟨log, Outcome.returned (p, t)⟩) (hs : s.BuildInv b) :
    t.BuildInv b := by
  cases hout : ((Subprocess.new use_console).Start b s command e).out with
  | returned oc =>
    obtain ⟨ok, c1⟩ := oc
    have hfd := Start_fd b _ c1 s command e ok hout
    cases ok with
    | false =>
      simp [SubprocessSet.Add, hout] at h
      obtain ⟨_, _, rfl⟩ := h
      exact hs
    | true =>
      by_cases hios : b.TARGET_OS_IPHONE = false
      · simp [SubprocessSet.Add, hout, hios] at h
        obtain ⟨_, _, rfl⟩ := h
        refine ⟨fun c hc => ?_, hs.2⟩
        rcases List.mem_append.mp hc with h1 | h1
        · exact hs.1 c h1
        · simp at h1; subst h1; exact hfd
      · simp [SubprocessSet.Add, hout, hios] at h
        obtain ⟨_, _, rfl⟩ := h
        exact ⟨hs.1, fun hb => absurd hb hios⟩
  | fatal w => simp [SubprocessSet.Add, hout] at h
  | abort => simp [SubprocessSet.Add, hout] at h
  | undefined => simp [SubprocessSet.Add, hout] at h

theorem Step_inv (b : Build) (m : WaitMacros) (s t : SubprocessSet) (h : Step b m s t)
    (hs : s.BuildInv b) : t.BuildInv b := by
  cases h with
  | add command use_console e log p _ h => exact Add_inv b s t command use_console e log p h hs
  | doWork e fuel log r _ h =>
    unfold SubprocessSet.DoWork at h
    split at h
    · exact DoWork_ppoll_inv b s t e fuel log r h hs
    · simp at h
      exact DoWork_pselect_inv b s t e log r h hs
  | nextFinished =>
    unfold SubprocessSet.NextFinished
    cases hf : s.finished_ with
    | nil => exact hs
    | cons c rest =>
      refine ⟨hs.1, fun hb d hd => hs.2 hb d ?_⟩
      rw [hf]
      exact List.mem_cons_of_mem _ hd
  | clear waitpid log _ h =>
    cases hout : (deleteLoop b m waitpid s.running_ (killLoop s.interrupted_ s.running_)).out with
    | returned u =>
      simp [SubprocessSet.Clear, hout] at h
      obtain ⟨_, rfl⟩ := h
      exact ⟨by simp, hs.2⟩
    | fatal w => simp [SubprocessSet.Clear, hout] at h
    | abort => simp [SubprocessSet.Clear, hout] at h
    | undefined => simp [SubprocessSet.Clear, hout] at h

theorem Reachable_BuildInv (b : Build) (m : WaitMacros) (s : SubprocessSet)
    (h : Reachable b m s) : s.BuildInv b := by
  induction h with
  | init interrupted e s h =>
    unfold SubprocessSet.new at h
    split at h
    · simp [Fatal] at h
    · split_ifs at h <;> simp [Fatal] at h
      subst h
      exact ⟨by simp, by simp⟩
  | step s t _ ht ih => exact Step_inv b m s t ht ih

theorem fdSetLoop_some (b : Build) :
    ∀ (cs : List Subprocess) (set : List Nat) (nfds : Int),
      (∀ c ∈ cs, c.fd_ < (b.FD_SETSIZE : Int)) →
      ∃ r, fdSetLoop b cs set nfds = some r := by
  intro cs
  induction cs with
  | nil => intro set nfds _; exact ⟨_, rfl⟩
  | cons c cs ih =>
    intro set nfds h
    have hc := h c (List.mem_cons_self _ _)
    have hcs : ∀ d ∈ cs, d.fd_ < (b.FD_SETSIZE : Int) :=
      fun d hd => h d (List.mem_cons_of_mem _ hd)
    unfold fdSetLoop
    split
    · simp only [FD_SET, hc, if_true]
      exact ih _ _ hcs
    · exact ih _ _ hcs

/-- In a build with the pselect variant every reachable state is within the
domain of `FD_SET`: the first loop of `DoWork` builds its set and the wait is
reached. -/
theorem Reachable_wait_reached (b : Build) (m : WaitMacros) (s : SubprocessSet)
    (h : Reachable b m s) (hp : b.USE_PPOLL = false) :
    ∃ set nfds, fdSetLoop b s.running_ [] 0 = some (set, nfds) := by
  have hinv := Reachable_BuildInv b m s h
  obtain ⟨⟨set, nfds⟩, hr⟩ := fdSetLoop_some b s.running_ [] 0
    (fun c hc => (hinv.1 c hc).2 hp)
  exact ⟨set, nfds, hr⟩

/-- C4 (as amended).  In every state reachable from construction by `Add`,
`DoWork`, `NextFinished` and `Clear`, every child in `running_` has
`fd_ >= 0`; in a build without `TARGET_OS_IPHONE`, every child in `finished_`
has `fd_ == -1`. -/
theorem Reachable_inv (b : Build) (m : WaitMacros) (s : SubprocessSet)
    (h : Reachable b m s) :
    (∀ c ∈ s.running_, c.fd_ ≥ 0) ∧
    (b.TARGET_OS_IPHONE = false → ∀ c ∈ s.finished_, c.fd_ = -1) := by
  have hinv := Reachable_BuildInv b m s h
  exact ⟨fun c hc => (hinv.1 c hc).1, hinv.2⟩

/-- Witness for C4: the state after construction and one `Add`. -/
theorem Reachable_inv_witness :
    (∀ c ∈ ({ emptySet with running_ := [childOn 5 100 false] } : SubprocessSet).running_,
      c.fd_ ≥ 0) ∧
    (pselectBuild.TARGET_OS_IPHONE = false →
      ∀ c ∈ ({ emptySet with running_ := [childOn 5 100 false] } : SubprocessSet).finished_,
        c.fd_ = -1) :=
  Reachable_inv pselectBuild posixWait { emptySet with running_ := [childOn 5 100 false] }
    (Reachable.step emptySet _ (Reachable.init 0 okCtor emptySet rfl)
      (Step.add emptySet "echo hi" false okStart
        [Event.posix_spawn (startRequest pselectBuild false [] "echo hi" 5 6), Event.close 6]
        (some (childOn 5 100 false)) _ rfl))

/-- C4 fails as stated in a build with `TARGET_OS_IPHONE`: after construction
and one `Add`, the child is in `finished_` and its `fd_` is the read end of
the pipe, 5, not -1. -/
theorem iphone_finished_keeps_descriptor :
    Reachable iphoneBuild posixWait
      { emptySet with finished_ := [{ childOn 5 (-1) false with buf_ := [104, 105, 10] }] } ∧
    ¬ ({ emptySet with
          finished_ := [{ childOn 5 (-1) false with buf_ := [104, 105, 10] }] } :
        SubprocessSet).Inv := by
  constructor
  · exact Reachable.step emptySet _ (Reachable.init 0 okCtor emptySet rfl)
      (Step.add emptySet "echo hi" false okStart []
        (some { childOn 5 (-1) false with buf_ := [104, 105, 10] }) _ rfl)
  · intro h
    have := h.2 _ (List.mem_cons_self _ _)
    revert this
    decide

/-! ## The two variants of `DoWork` -/

theorem pollfdLoop_eq :
    ∀ (cs : List Subprocess) (fds : List Int), (∀ c ∈ cs, 0 ≤ c.fd_) →
      pollfdLoop cs fds = fds ++ cs.map (fun c => c.fd_) := by
  intro cs
  induction cs with
  | nil => intro fds _; simp [pollfdLoop]
  | cons c cs ih =>
    intro fds h
    have hc : ¬ c.fd_ < 0 := not_lt.mpr (h c (List.mem_cons_self _ _))
    unfold pollfdLoop
    rw [if_neg hc, ih _ (fun d hd => h d (List.mem_cons_of_mem _ hd))]
    simp

theorem drop_cons_index (fds : List Int) (cur : Nat) (x : Int) (xs : List Int)
    (h : fds.drop cur = x :: xs) : fds[cur]? = some x ∧ fds.drop (cur + 1) = xs := by
  constructor
  · have h1 := List.getElem?_drop (L := fds) (i := cur) (j := 0)
    rw [h] at h1
    simpa using h1.symm
  · have h2 : fds.drop (cur + 1) = (fds.drop cur).tail := by rw [List.tail_drop]
    rw [h2, h]
    rfl

/-- With descriptors `>= 0`, the `pollfd` entries lined up with the children
and the same readiness, the second loop of the ppoll variant ends, and ends as
the second loop of the pselect variant does. -/
theorem ppollLoop_eq_pselectLoop (b : Build) (hb : b.TARGET_OS_IPHONE = false)
    (fds : List Int) (revents : Nat → Int) (R : List Nat) (read : Int → ReadResult)
    (hsame : ∀ (i : Nat) (fd : Int), fds[i]? = some fd → (revents i ≠ 0 ↔ fd.toNat ∈ R)) :
    ∀ (rest : List Subprocess) (fuel cur : Nat) (kept finished : List Subprocess)
      (log : List Event),
      rest.length < fuel → (∀ c ∈ rest, 0 ≤ c.fd_) →
      fds.drop cur = rest.map (fun c => c.fd_) →
      ppollLoop b fds revents read fuel cur rest kept finished log =
        some (pselectLoop b R read rest kept finished log) := by
  intro rest
  induction rest with
  | nil =>
    intro fuel cur kept finished log hfuel _ _
    cases fuel with
    | zero => simp at hfuel
    | succ n => simp [ppollLoop, pselectLoop]
  | cons c cs ih =>
    intro fuel cur kept finished log hfuel hfd hdrop
    cases fuel with
    | zero => simp at hfuel
    | succ n =>
      have hn : cs.length < n := by simpa using hfuel
      have hc : 0 ≤ c.fd_ := hfd c (List.mem_cons_self _ _)
      have hcs : ∀ d ∈ cs, 0 ≤ d.fd_ := fun d hd => hfd d (List.mem_cons_of_mem _ hd)
      obtain ⟨hidx, hdrop2⟩ := drop_cons_index fds cur c.fd_ (cs.map (fun c => c.fd_))
        (by simpa using hdrop)
      have hneg : ¬ c.fd_ < 0 := not_lt.mpr hc
      have hassert : (!b.NDEBUG && decide (fds[cur]? ≠ some c.fd_)) = false := by
        simp [hidx]
      have hready := hsame cur c.fd_ hidx
      unfold ppollLoop pselectLoop
      rw [if_neg hneg, hassert]
      simp only [Bool.false_eq_true, if_false, hb, Bool.false_or]
      by_cases hr : c.fd_.toNat ∈ R
      · have h1 : revents cur ≠ 0 := hready.mpr hr
        have h2 : (decide (c.fd_ ≥ 0) && FD_ISSET c.fd_ R) = true := by
          simp [FD_ISSET, hr, hc]
        rw [if_pos h1, h2]
        simp only [if_true]
        cases hO : c.OnPipeReady b (read c.fd_) with
        | returned c1 =>
          simp only
          split
          · exact ih _ _ _ _ _ hn hcs hdrop2
          · exact ih _ _ _ _ _ hn hcs hdrop2
        | fatal w => rfl
        | abort => rfl
        | undefined => rfl
      · have h1 : ¬ revents cur ≠ 0 := fun h => hr (hready.mp h)
        have h2 : (decide (c.fd_ ≥ 0) && FD_ISSET c.fd_ R) = false := by
          simp [FD_ISSET, hr]
        rw [if_neg h1, h2]
        simp only [Bool.false_eq_true, if_false]
        exact ih _ _ _ _ _ hn hcs hdrop2

/-- Both variants on a state the pselect variant can handle: the set and
`nfds` are those its first loop has built. -/
theorem DoWork_variants_agree_on (b : Build) (s : SubprocessSet) (e : DoWorkEnv)
    (hb : b.TARGET_OS_IPHONE = false) (hfd : ∀ c ∈ s.running_, 0 ≤ c.fd_)
    (set : List Nat) (nfds : Int) (hset : fdSetLoop b s.running_ [] 0 = some (set, nfds))
    (hwait : SameWait (pollfdLoop s.running_ []) (e.ppoll (pollfdLoop s.running_ []))
      (e.pselect nfds set)) :
    ∀ fuel, s.running_.length < fuel →
      ∃ r, s.DoWork_ppoll b e fuel = some r ∧ r.out = (s.DoWork_pselect b e).out := by
  intro fuel hfuel
  have hfds : pollfdLoop s.running_ [] = s.running_.map (fun c => c.fd_) := by
    rw [pollfdLoop_eq _ _ hfd]
    simp
  unfold SubprocessSet.DoWork_ppoll SubprocessSet.DoWork_pselect
  simp only [hb, hset, Bool.false_eq_true, if_false]
  cases hpp : e.ppoll (pollfdLoop s.running_ []) with
  | failed errno1 caught1 =>
    cases hps : e.pselect nfds set with
    | failed errno2 caught2 =>
      rw [hpp, hps] at hwait
      obtain ⟨rfl, rfl⟩ := hwait
      simp only
      split <;> exact ⟨_, rfl, rfl⟩
    | returned R =>
      rw [hpp, hps] at hwait
      exact absurd hwait (by simp [SameWait])
  | returned revents =>
    cases hps : e.pselect nfds set with
    | failed errno2 caught2 =>
      rw [hpp, hps] at hwait
      exact absurd hwait (by simp [SameWait])
    | returned R =>
      rw [hpp, hps] at hwait
      have hl := HandlePendingInterruption_lists { s with interrupted_ := 0 } e.sigpending
      simp only at hl
      simp only
      split
      · exact ⟨_, rfl, rfl⟩
      · have hloop := ppollLoop_eq_pselectLoop b hb (pollfdLoop s.running_ []) revents R e.read
          hwait s.running_ fuel 0 []
          ({ s with interrupted_ := 0 }.HandlePendingInterruption e.sigpending).2.finished_
          ({ s with interrupted_ := 0 }.HandlePendingInterruption e.sigpending).1
          hfuel hfd (by simpa using hfds)
        rw [hl.1, hloop]
        simp only
        split <;> exact ⟨_, rfl, rfl⟩

/-- C10 (as amended).  In a build without `TARGET_OS_IPHONE`, from a state
whose running children all have `0 <= fd_ < FD_SETSIZE`, pairwise distinct:
the first loop of the pselect variant builds its set, and whenever the two
waits have the same outcome, with the same `sigpending` and the same `read`
results, the ppoll variant ends (any fuel above the number of running children
is enough) and ends as the pselect variant does: the same return value and the
same set afterwards (`running_`, `finished_`, every buffer), or the same
`Fatal`. -/
theorem DoWork_variants_agree (b : Build) (s : SubprocessSet) (e : DoWorkEnv)
    (hb : b.TARGET_OS_IPHONE = false) (hfd : ∀ c ∈ s.running_, 0 ≤ c.fd_)
    (hsize : ∀ c ∈ s.running_, c.fd_ < (b.FD_SETSIZE : Int))
    (_hdistinct : (s.running_.map (fun c => c.fd_)).Nodup) :
    (∃ set nfds, fdSetLoop b s.running_ [] 0 = some (set, nfds)) ∧
    (∀ set nfds, fdSetLoop b s.running_ [] 0 = some (set, nfds) →
      SameWait (pollfdLoop s.running_ []) (e.ppoll (pollfdLoop s.running_ []))
        (e.pselect nfds set) →
      ∀ fuel, s.running_.length < fuel →
        ∃ r, s.DoWork_ppoll b e fuel = some r ∧ r.out = (s.DoWork_pselect b e).out) := by
  constructor
  · obtain ⟨⟨set, nfds⟩, hr⟩ := fdSetLoop_some b s.running_ [] 0 hsize
    exact ⟨set, nfds, hr⟩
  · intro set nfds hset hwait
    exact DoWork_variants_agree_on b s e hb hfd set nfds hset hwait

/-- Witness for C10: three running children on 3, 4, 5; both waits report 3
and 5 ready; 3 reads two bytes, 5 reads end of stream. -/
theorem DoWork_variants_agree_witness :
    ∃ r, ({ emptySet with
            running_ := [childOn 3 100 false, childOn 4 101 false, childOn 5 102 true] }
          ).DoWork_ppoll ppollBuild
        (envOf (WaitResult.returned [3, 5])
          (WaitResult.returned (fun i => if i = 0 ∨ i = 2 then 1 else 0)) (some [])
          (fun fd => if fd = 3 then ⟨2, [104, 105]⟩ else ⟨0, []⟩)) 4 = some r ∧
      r.out = (({ emptySet with
            running_ := [childOn 3 100 false, childOn 4 101 false, childOn 5 102 true] }
          ).DoWork_pselect ppollBuild
        (envOf (WaitResult.returned [3, 5])
          (WaitResult.returned (fun i => if i = 0 ∨ i = 2 then 1 else 0)) (some [])
          (fun fd => if fd = 3 then ⟨2, [104, 105]⟩ else ⟨0, []⟩))).out :=
  (DoWork_variants_agree ppollBuild
    { emptySet with
      running_ := [childOn 3 100 false, childOn 4 101 false, childOn 5 102 true] }
    (envOf (WaitResult.returned [3, 5])
      (WaitResult.returned (fun i => if i = 0 ∨ i = 2 then 1 else 0)) (some [])
      (fun fd => if fd = 3 then ⟨2, [104, 105]⟩ else ⟨0, []⟩))
    rfl (by decide) (by decide) (by decide)).2 [3, 4, 5] 6 rfl
    (by
      intro i fd h
      match i, h with
      | 0, h => cases h; decide
      | 1, h => cases h; decide
      | 2, h => cases h; decide
      | _ + 3, h => cases h)
    4 (by decide)

/-- C10 fails as stated.  A ppoll build reaches, by one `Add`, a state whose
only running child has descriptor 1024 = `FD_SETSIZE`: it is `>= 0` and
distinct from every other.  With the descriptor reported ready to both
variants and the same `read`, the ppoll variant returns false and moves the
child to `finished_`; the pselect variant has no defined behaviour, its
`FD_SET` being outside the set.  And in a build with `TARGET_OS_IPHONE`, on a
wait that fails with EINTR after the handler stored SIGINT, the ppoll variant
returns true and the other one, which does not wait, returns false. -/
theorem DoWork_variants_differ :
    Reachable ppollBuild posixWait { emptySet with running_ := [childOn 1024 100 false] } ∧
    (∀ c ∈ [childOn 1024 100 false], 0 ≤ c.fd_) ∧
    ([childOn 1024 100 false].map (fun c => c.fd_)).Nodup ∧
    ({ emptySet with running_ := [childOn 1024 100 false] }).DoWork_ppoll ppollBuild
      (envOf (WaitResult.returned [1024]) (WaitResult.returned (fun _ => 1)) (some [])
        (fun _ => ⟨0, []⟩)) 2 =
      some ⟨[Event.OnPipeReady (childOn 1024 100 false)],
        Outcome.returned (false, { emptySet with finished_ := [childOn (-1) 100 false] })⟩ ∧
    ({ emptySet with running_ := [childOn 1024 100 false] }).DoWork_pselect ppollBuild
      (envOf (WaitResult.returned [1024]) (WaitResult.returned (fun _ => 1)) (some [])
        (fun _ => ⟨0, []⟩)) = ⟨[], Outcome.undefined⟩ ∧
    ({ emptySet with running_ := [childOn 3 100 false] }).DoWork_ppoll iphoneBuild
      (envOf (WaitResult.failed EINTR SIGINT) (WaitResult.failed EINTR SIGINT) (some [])
        (fun _ => ⟨0, []⟩)) 2 =
      some ⟨[], Outcome.returned (true,
        { emptySet with running_ := [childOn 3 100 false], interrupted_ := SIGINT })⟩ ∧
    ({ emptySet with running_ := [childOn 3 100 false] }).DoWork_pselect iphoneBuild
      (envOf (WaitResult.failed EINTR SIGINT) (WaitResult.failed EINTR SIGINT) (some [])
        (fun _ => ⟨0, []⟩)) =
      ⟨[Event.OnPipeReady (childOn 3 100 false)],
        Outcome.returned (false, { emptySet with running_ := [childOn 3 100 false] })⟩ := by
  refine ⟨?_, by decide, by decide, by decide, by decide, by decide, by decide⟩
  exact Reachable.step emptySet _ (Reachable.init 0 okCtor emptySet rfl)
    (Step.add emptySet "echo hi" false
      { pipe := some (1024, 1025), err := fun _ => 0, pid := 100, nosystem_read := ⟨0, []⟩ }
      [Event.posix_spawn (startRequest ppollBuild false [] "echo hi" 1024 1025),
        Event.close 1025]
      (some (childOn 1024 100 false)) _ rfl)

end Ninja
